import Mathlib

/-!
Verification of the Edura AI-generation pipeline.

This file embeds, in Lean, the JavaScript/TypeScript code of
`src/lib/gemini.ts` and `src/services/courseService.ts` (the response
extractor `parseJsonResponse`, the per-kind schema normalizers inside
`generateQuiz`, `generateFlashcards`, `generateRoadmap`,
`generateDetailedRoadmap` and `generateCourseOutline`, the credential
gate `ensureApiReady`/`generateText`, and the job-lifecycle wrapper
`generateAICourse`), and proves or refutes the specified properties.

Untyped JavaScript values flowing out of `JSON.parse` are modelled by
the inductive type `Json`; `undefined` (absence of a property) is
modelled by `Option Json` with `none` for `undefined`.  JavaScript
numbers are modelled by `JsNum`: `NaN`, the two infinities, or a
rational value (the float representation itself is not modelled; none
of the verified properties depend on rounding).  Runtime exceptions
(`TypeError` from calling a method on a non-object, `SyntaxError` from
`JSON.parse`, and explicit `throw new Error(msg)`) are modelled with
`Except JsError`.
-/

namespace Edura

/-- Model of a JavaScript number: `NaN`, `Infinity`, `-Infinity`, or a
finite value (represented as a rational; float rounding is not
modelled). -/
inductive JsNum where
  | nan
  | inf
  | ninf
  | val (q : ℚ)
deriving DecidableEq, Repr

/-- Model of a JSON value / untyped JavaScript value produced by
`JSON.parse`.  Object fields keep their textual order; duplicate keys
are resolved last-wins, as in JavaScript. -/
inductive Json where
  | null
  | bool (b : Bool)
  | num (n : JsNum)
  | str (s : String)
  | arr (elems : List Json)
  | obj (fields : List (String × Json))
deriving Repr

/-- Model of a JavaScript exception: a runtime `TypeError`, a
`SyntaxError` raised by `JSON.parse`, or an explicit
`throw new Error(msg)`. -/
inductive JsError where
  | typeError
  | jsonSyntaxError
  | thrown (msg : String)
deriving DecidableEq, Repr

mutual

def decEqJson : (a b : Json) → Decidable (a = b)
  | .null, .null => .isTrue rfl
  | .bool a, .bool b =>
    match decEq a b with
    | .isTrue h => .isTrue (congrArg Json.bool h)
    | .isFalse h => .isFalse (fun hh => h (Json.bool.inj hh))
  | .num a, .num b =>
    match decEq a b with
    | .isTrue h => .isTrue (congrArg Json.num h)
    | .isFalse h => .isFalse (fun hh => h (Json.num.inj hh))
  | .str a, .str b =>
    match decEq a b with
    | .isTrue h => .isTrue (congrArg Json.str h)
    | .isFalse h => .isFalse (fun hh => h (Json.str.inj hh))
  | .arr a, .arr b =>
    match decEqJsonList a b with
    | .isTrue h => .isTrue (congrArg Json.arr h)
    | .isFalse h => .isFalse (fun hh => h (Json.arr.inj hh))
  | .obj a, .obj b =>
    match decEqJsonFields a b with
    | .isTrue h => .isTrue (congrArg Json.obj h)
    | .isFalse h => .isFalse (fun hh => h (Json.obj.inj hh))
  | .null, .bool _ => .isFalse (fun h => Json.noConfusion h)
  | .null, .num _ => .isFalse (fun h => Json.noConfusion h)
  | .null, .str _ => .isFalse (fun h => Json.noConfusion h)
  | .null, .arr _ => .isFalse (fun h => Json.noConfusion h)
  | .null, .obj _ => .isFalse (fun h => Json.noConfusion h)
  | .bool _, .null => .isFalse (fun h => Json.noConfusion h)
  | .bool _, .num _ => .isFalse (fun h => Json.noConfusion h)
  | .bool _, .str _ => .isFalse (fun h => Json.noConfusion h)
  | .bool _, .arr _ => .isFalse (fun h => Json.noConfusion h)
  | .bool _, .obj _ => .isFalse (fun h => Json.noConfusion h)
  | .num _, .null => .isFalse (fun h => Json.noConfusion h)
  | .num _, .bool _ => .isFalse (fun h => Json.noConfusion h)
  | .num _, .str _ => .isFalse (fun h => Json.noConfusion h)
  | .num _, .arr _ => .isFalse (fun h => Json.noConfusion h)
  | .num _, .obj _ => .isFalse (fun h => Json.noConfusion h)
  | .str _, .null => .isFalse (fun h => Json.noConfusion h)
  | .str _, .bool _ => .isFalse (fun h => Json.noConfusion h)
  | .str _, .num _ => .isFalse (fun h => Json.noConfusion h)
  | .str _, .arr _ => .isFalse (fun h => Json.noConfusion h)
  | .str _, .obj _ => .isFalse (fun h => Json.noConfusion h)
  | .arr _, .null => .isFalse (fun h => Json.noConfusion h)
  | .arr _, .bool _ => .isFalse (fun h => Json.noConfusion h)
  | .arr _, .num _ => .isFalse (fun h => Json.noConfusion h)
  | .arr _, .str _ => .isFalse (fun h => Json.noConfusion h)
  | .arr _, .obj _ => .isFalse (fun h => Json.noConfusion h)
  | .obj _, .null => .isFalse (fun h => Json.noConfusion h)
  | .obj _, .bool _ => .isFalse (fun h => Json.noConfusion h)
  | .obj _, .num _ => .isFalse (fun h => Json.noConfusion h)
  | .obj _, .str _ => .isFalse (fun h => Json.noConfusion h)
  | .obj _, .arr _ => .isFalse (fun h => Json.noConfusion h)

def decEqJsonList : (a b : List Json) → Decidable (a = b)
  | [], [] => .isTrue rfl
  | [], _ :: _ => .isFalse (fun h => List.noConfusion h)
  | _ :: _, [] => .isFalse (fun h => List.noConfusion h)
  | a :: as, b :: bs =>
    match decEqJson a b with
    | .isFalse h => .isFalse (fun hh => h (List.cons.inj hh).1)
    | .isTrue h1 =>
      match decEqJsonList as bs with
      | .isTrue h2 => .isTrue (h1 ▸ h2 ▸ rfl)
      | .isFalse h2 => .isFalse (fun hh => h2 (List.cons.inj hh).2)

def decEqJsonFields : (a b : List (String × Json)) → Decidable (a = b)
  | [], [] => .isTrue rfl
  | [], _ :: _ => .isFalse (fun h => List.noConfusion h)
  | _ :: _, [] => .isFalse (fun h => List.noConfusion h)
  | (k1, v1) :: as, (k2, v2) :: bs =>
    match decEq k1 k2 with
    | .isFalse h => .isFalse (fun hh => h (congrArg (fun l => (l.headD ("", Json.null)).1) hh))
    | .isTrue hk =>
      match decEqJson v1 v2 with
      | .isFalse h => .isFalse (fun hh => h (congrArg (fun l => (l.headD ("", Json.null)).2) hh))
      | .isTrue hv =>
        match decEqJsonFields as bs with
        | .isTrue h2 => .isTrue (hk ▸ hv ▸ h2 ▸ rfl)
        | .isFalse h2 => .isFalse (fun hh => h2 (List.cons.inj hh).2)

end

instance : DecidableEq Json := decEqJson

/-! ### Basic JavaScript semantics -/

/-- Whitespace characters recognised by `String.prototype.trim` (the
common ASCII ones plus NBSP; the remaining exotic Unicode space
characters never occur in the verified inputs). -/
def isJsSpaceChar (c : Char) : Bool :=
  c = ' ' || c = '\t' || c = '\n' || c = '\r' || c = '\x0b' || c = '\x0c' || c = '\xa0'

/-- Trim leading and trailing JS whitespace from a character list. -/
def trimCharList (l : List Char) : List Char :=
  ((l.dropWhile isJsSpaceChar).reverse.dropWhile isJsSpaceChar).reverse

/-- Model of `String.prototype.trim`. -/
def jsTrim (s : String) : String :=
  ⟨trimCharList s.data⟩

/-- ASCII lower-casing of one character (sufficient for every string
the pipeline lower-cases: resource types, difficulty labels, fence
tags). -/
def lcChar (c : Char) : Char :=
  if 'A' ≤ c && c ≤ 'Z' then Char.ofNat (c.toNat + 32) else c

/-- Model of `String.prototype.toLowerCase` (ASCII). -/
def jsToLower (s : String) : String :=
  ⟨s.data.map lcChar⟩

/-- Test that `pat` is a leading segment of `l`. -/
def leadsWith : List Char → List Char → Bool
  | [], _ => true
  | _ :: _, [] => false
  | p :: ps, c :: cs => p == c && leadsWith ps cs

def containsSub (hay pat : List Char) : Bool :=
  if leadsWith pat hay then true
  else
    match hay with
    | [] => false
    | _ :: rest => containsSub rest pat

/-- Model of `String.prototype.includes`. -/
def strContains (s pat : String) : Bool :=
  containsSub s.data pat.data

/-- Digit-sequence value in a given base. -/
def digitsVal (base : Nat) (l : List Nat) : Nat :=
  l.foldl (fun acc d => acc * base + d) 0

def decDigit (c : Char) : Option Nat :=
  let n := c.toNat
  if 48 ≤ n ∧ n ≤ 57 then some (n - 48) else none

def allDecDigits (l : List Char) : Option (List Nat) :=
  l.mapM decDigit

/-- Parse the body (sign already removed) of a decimal numeric literal
as accepted by the JavaScript `Number` conversion:
`digits [. digits] [e [sign] digits]`, `digits.`, or `.digits`.
Returns the value as a numerator/denominator pair of naturals, or
`none` when the text is not such a literal. -/
def parseDecBody (l : List Char) : Option (Nat × Nat) :=
  let expSplit := fun (m : List Char) =>
    match m.splitOnP (fun c => c = 'e' || c = 'E') with
    | [whole] => some (whole, ([] : List Char), true)
    | [whole, ex] =>
      match ex with
      | [] => none
      | '+' :: ds => if ds = [] then none else some (whole, ds, true)
      | '-' :: ds => if ds = [] then none else some (whole, ds, false)
      | ds => some (whole, ds, true)
    | _ => none
  match expSplit l with
  | none => none
  | some (mant, expDigits, expPos) =>
    let mantPart :=
      match mant.splitOnP (fun c => c = '.') with
      | [whole] =>
        if whole = [] then none else
        (allDecDigits whole).map (fun ds => (digitsVal 10 ds, 1))
      | [whole, frac] =>
        if whole = [] && frac = [] then none else
        match allDecDigits whole, allDecDigits frac with
        | some wds, some fds =>
          some (digitsVal 10 wds * 10 ^ fds.length + digitsVal 10 fds, 10 ^ fds.length)
        | _, _ => none
      | _ => none
    match mantPart with
    | none => none
    | some (n, d) =>
      match expDigits with
      | [] => some (n, d)
      | ds =>
        match allDecDigits ds with
        | none => none
        | some eds =>
          let e := digitsVal 10 eds
          some (if expPos then (n * 10 ^ e, d) else (n, d * 10 ^ e))

/-- Model of the string-to-number coercion `Number(string)`: the text
is trimmed, the empty string is `0`, `Infinity` forms are recognised,
decimal literals (with optional fraction and exponent) are parsed, and
anything else is `NaN`.  (Hex/octal/binary literal prefixes never
occur in the verified inputs and are mapped to `NaN`.) -/
def parseNumStr (s : String) : JsNum :=
  match trimCharList s.data with
  | [] => .val 0
  | l =>
    let signed := fun (body : List Char) (pos : Bool) =>
      if body = 'I' :: 'n' :: 'f' :: 'i' :: 'n' :: 'i' :: 't' :: 'y' :: [] then
        (if pos then JsNum.inf else JsNum.ninf)
      else
        match parseDecBody body with
        | some (n, d) => .val (mkRat (if pos then (n : Int) else -(n : Int)) d)
        | none => .nan
    match l with
    | '+' :: body => signed body true
    | '-' :: body => signed body false
    | body => signed body true

/-- String form of a finite JavaScript number.  Integers print exactly
as in JavaScript; non-integral rationals print as `num/den`, which is
only an approximation of JS float formatting — no verified property
evaluates it on a non-integer. -/
def numToString (n : JsNum) : String :=
  match n with
  | .nan => "NaN"
  | .inf => "Infinity"
  | .ninf => "-Infinity"
  | .val q => if q.den = 1 then toString q.num else toString q.num ++ "/" ++ toString q.den

mutual

/-- Model of the JavaScript string coercion `String(v)` (template
literal interpolation).  Arrays join their elements with commas,
`null`/`undefined` elements becoming empty; plain objects print as
`[object Object]`. -/
def jsToStringV : Json → String
  | .null => "null"
  | .bool b => if b then "true" else "false"
  | .num n => numToString n
  | .str s => s
  | .arr l => arrJoinStr l
  | .obj _ => "[object Object]"

def arrJoinStr : List Json → String
  | [] => ""
  | [Json.null] => ""
  | [x] => jsToStringV x
  | Json.null :: rest => "," ++ arrJoinStr rest
  | x :: rest => jsToStringV x ++ "," ++ arrJoinStr rest

end

/-- Model of the numeric coercion `Number(v)` on an arbitrary value:
`null → 0`, booleans to `0/1`, strings via `parseNumStr`, arrays via
their string join (as in JS `ToPrimitive`), objects to `NaN`. -/
def jsToNumber : Json → JsNum
  | .null => .val 0
  | .bool b => .val (if b then 1 else 0)
  | .num n => n
  | .str s => parseNumStr s
  | .arr l => parseNumStr (arrJoinStr l)
  | .obj _ => .nan

/-- Model of `Number.isInteger`. -/
def numIsInteger (n : JsNum) : Bool :=
  match n with
  | .val q => q.den = 1
  | _ => false

def numTruthy (n : JsNum) : Bool :=
  match n with
  | .nan => false
  | .inf => true
  | .ninf => true
  | .val q => q ≠ 0

/-- JavaScript truthiness of a value. -/
def jsTruthy : Json → Bool
  | .null => false
  | .bool b => b
  | .num n => numTruthy n
  | .str s => s ≠ ""
  | .arr _ => true
  | .obj _ => true

/-- Truthiness of a possibly-`undefined` value. -/
def optTruthy : Option Json → Bool
  | none => false
  | some j => jsTruthy j

/-- Last-wins field lookup, matching JavaScript object semantics for
duplicate keys in a JSON text. -/
def lookupField (fields : List (String × Json)) (key : String) : Option Json :=
  match fields with
  | [] => none
  | (k, v) :: rest =>
    match lookupField rest key with
    | some r => some r
    | none => if k = key then some v else none

/-- Model of the property read `v.key`: throws `TypeError` on `null`,
returns the field on objects, exposes `length` on arrays and strings,
and yields `undefined` (`none`) otherwise. -/
def getField (v : Json) (key : String) : Except JsError (Option Json) :=
  match v with
  | .null => .error .typeError
  | .obj fs => .ok (lookupField fs key)
  | .arr l => .ok (if key = "length" then some (.num (.val l.length)) else none)
  | .str s => .ok (if key = "length" then some (.num (.val s.data.length)) else none)
  | _ => .ok none

/-- Model of the optional-chained property read `v?.key` on a
possibly-`undefined` value: `undefined`/`null` short-circuit to
`undefined` instead of throwing. -/
def getFieldOpt (v : Option Json) (key : String) : Except JsError (Option Json) :=
  match v with
  | none => .ok none
  | some .null => .ok none
  | some j => getField j key

/-- Model of `x?.trim()` on a possibly-`undefined` value: strings are
trimmed, `null`/`undefined` give `undefined`, any other value throws
`TypeError`. -/
def optChainTrim : Option Json → Except JsError (Option String)
  | none => .ok none
  | some .null => .ok none
  | some (.str s) => .ok (some (jsTrim s))
  | some _ => .error .typeError

/-- Model of the idiom `x?.trim() || ''`. -/
def trimOrEmpty (v : Option Json) : Except JsError String := do
  match ← optChainTrim v with
  | none => pure ""
  | some s => pure s

/-- Model of the nullish coalescing `v ?? d` with a direct default. -/
def nullish (v : Option Json) (d : Json) : Json :=
  match v with
  | none => d
  | some .null => d
  | some j => j

/-- Model of `v ?? w` where the default is itself possibly
`undefined`. -/
def nullishOpt (v w : Option Json) : Option Json :=
  match v with
  | none => w
  | some .null => w
  | some j => some j


/-- Model of JavaScript `Array.prototype.map` with a fallible
element function: elements are processed left to right and the first
exception aborts. -/
def mapME (f : α → Except ε β) : List α → Except ε (List β)
  | [] => .ok []
  | x :: rest => do
    let b ← f x
    let bs ← mapME f rest
    .ok (b :: bs)

/-- Model of JavaScript `Array.prototype.filter` with a fallible
predicate: elements are tested left to right and the first exception
aborts. -/
def filterME (p : α → Except ε Bool) : List α → Except ε (List α)
  | [] => .ok []
  | x :: rest => do
    let keep ← p x
    let rest2 ← filterME p rest
    .ok (if keep then x :: rest2 else rest2)

/-- Model of the `||` default `v || d` (truthiness-based). -/
def orDefault (v : Option Json) (d : Json) : Json :=
  match v with
  | none => d
  | some j => if jsTruthy j then j else d

end Edura

namespace Edura

/-! ### JSON.parse -/

def isJsonWs (c : Char) : Bool :=
  c = ' ' || c = '\t' || c = '\n' || c = '\r'

def skipWs (l : List Char) : List Char :=
  l.dropWhile isJsonWs

def hexDigit (c : Char) : Option Nat :=
  let n := c.toNat
  if 48 ≤ n ∧ n ≤ 57 then some (n - 48)
  else if 97 ≤ n ∧ n ≤ 102 then some (n - 87)
  else if 65 ≤ n ∧ n ≤ 70 then some (n - 55)
  else none

/-- Parse the body of a JSON string literal (after the opening quote),
returning the decoded characters and the input following the closing
quote.  Escapes are decoded as by `JSON.parse`; a `\uXXXX` escape
becomes the character with that code (lone surrogates, which are not
valid Lean `Char`s, map to the null character — no verified input
contains them).  Unescaped control characters are rejected. -/
def parseStringBody : List Char → Except Unit (List Char × List Char)
  | [] => .error ()
  | '"' :: rest => .ok ([], rest)
  | '\\' :: esc =>
    match esc with
    | 'u' :: h1 :: h2 :: h3 :: h4 :: rest =>
      match hexDigit h1, hexDigit h2, hexDigit h3, hexDigit h4 with
      | some a, some b, some c, some d => do
        let (tail, rem) ← parseStringBody rest
        .ok ((Char.ofNat (((a * 16 + b) * 16 + c) * 16 + d)) :: tail, rem)
      | _, _, _, _ => .error ()
    | e :: rest => do
      let decoded ←
        match e with
        | '"' => Except.ok '"'
        | '\\' => Except.ok '\\'
        | '/' => Except.ok '/'
        | 'b' => Except.ok (Char.ofNat 8)
        | 'f' => Except.ok (Char.ofNat 12)
        | 'n' => Except.ok '\n'
        | 'r' => Except.ok '\r'
        | 't' => Except.ok '\t'
        | _ => Except.error ()
      let (tail, rem) ← parseStringBody rest
      .ok (decoded :: tail, rem)
    | [] => .error ()
  | c :: rest =>
    if c.toNat < 32 then .error ()
    else do
      let (tail, rem) ← parseStringBody rest
      .ok (c :: tail, rem)

/-- Parse a JSON number token per the strict JSON grammar
(`-? (0 | [1-9][0-9]*) frac? exp?`), returning its rational value and
the rest of the input.  The value is assembled with natural-number
arithmetic and one final `mkRat`. -/
def parseNumToken (l : List Char) : Except Unit (ℚ × List Char) :=
  let readDigits : List Char → (List Nat × List Char) := fun m =>
    let ds := m.takeWhile (fun c => decide ('0' ≤ c) && decide (c ≤ '9'))
    ((ds.filterMap decDigit), m.drop ds.length)
  let (neg, l1) := match l with
    | '-' :: rest => (true, rest)
    | _ => (false, l)
  let intPart : Except Unit (Nat × List Char) :=
    match l1 with
    | '0' :: rest => .ok (0, rest)
    | c :: _ =>
      if '1' ≤ c && c ≤ '9' then
        let (ds, rest) := readDigits l1
        .ok (digitsVal 10 ds, rest)
      else .error ()
    | [] => .error ()
  match intPart with
  | .error _ => .error ()
  | .ok (ip, l2) =>
    let fracPart : Except Unit ((Nat × Nat) × List Char) :=
      match l2 with
      | '.' :: rest =>
        let (ds, l3) := readDigits rest
        if ds = [] then .error ()
        else .ok ((ip * 10 ^ ds.length + digitsVal 10 ds, 10 ^ ds.length), l3)
      | _ => .ok ((ip, 1), l2)
    match fracPart with
    | .error _ => .error ()
    | .ok ((n, d), l3) =>
      let expPart : Except Unit ((Nat × Nat) × List Char) :=
        match l3 with
        | 'e' :: rest | 'E' :: rest =>
          let (pos, l4) := match rest with
            | '+' :: r => (true, r)
            | '-' :: r => (false, r)
            | r => (true, r)
          let (ds, l5) := readDigits l4
          if ds = [] then .error ()
          else
            let e := digitsVal 10 ds
            .ok ((if pos then (n * 10 ^ e, d) else (n, d * 10 ^ e)), l5)
        | _ => .ok ((n, d), l3)
      match expPart with
      | .error _ => .error ()
      | .ok ((n2, d2), l6) =>
        .ok (mkRat (if neg then -(n2 : Int) else (n2 : Int)) d2, l6)

mutual

/-- Fuel-indexed recursive-descent parser for one JSON value
(leading whitespace allowed), as accepted by `JSON.parse`. -/
def parseJsonVal : Nat → List Char → Except Unit (Json × List Char)
  | 0, _ => .error ()
  | fuel + 1, l =>
    match skipWs l with
    | [] => .error ()
    | '{' :: rest =>
      (match skipWs rest with
      | '}' :: rem => .ok (.obj [], rem)
      | l2 => do
        let (fs, rem) ← parseObjFields fuel l2
        .ok (.obj fs, rem))
    | '[' :: rest =>
      (match skipWs rest with
      | ']' :: rem => .ok (.arr [], rem)
      | l2 => do
        let (es, rem) ← parseArrElems fuel l2
        .ok (.arr es, rem))
    | '"' :: rest => do
      let (cs, rem) ← parseStringBody rest
      .ok (.str ⟨cs⟩, rem)
    | 't' :: 'r' :: 'u' :: 'e' :: rem => .ok (.bool true, rem)
    | 'f' :: 'a' :: 'l' :: 's' :: 'e' :: rem => .ok (.bool false, rem)
    | 'n' :: 'u' :: 'l' :: 'l' :: rem => .ok (.null, rem)
    | l1 => do
      let (q, rem) ← parseNumToken l1
      .ok (.num (.val q), rem)

/-- Parse the (non-empty) field list of a JSON object, consuming the
closing brace. -/
def parseObjFields : Nat → List Char → Except Unit (List (String × Json) × List Char)
  | 0, _ => .error ()
  | fuel + 1, l =>
    match skipWs l with
    | '"' :: rest => do
      let (kcs, afterKey) ← parseStringBody rest
      match skipWs afterKey with
      | ':' :: afterColon => do
        let (v, afterVal) ← parseJsonVal fuel afterColon
        match skipWs afterVal with
        | ',' :: more => do
          let (fs, rem) ← parseObjFields fuel more
          .ok ((⟨kcs⟩, v) :: fs, rem)
        | '}' :: rem => .ok ([(⟨kcs⟩, v)], rem)
        | _ => .error ()
      | _ => .error ()
    | _ => .error ()

/-- Parse the (non-empty) element list of a JSON array, consuming the
closing bracket. -/
def parseArrElems : Nat → List Char → Except Unit (List Json × List Char)
  | 0, _ => .error ()
  | fuel + 1, l => do
    let (v, afterVal) ← parseJsonVal fuel l
    match skipWs afterVal with
    | ',' :: more => do
      let (es, rem) ← parseArrElems fuel more
      .ok (v :: es, rem)
    | ']' :: rem => .ok ([v], rem)
    | _ => .error ()

end

/-- Model of `JSON.parse`: parse one value and require only whitespace
to follow. -/
def jsonParse (s : String) : Except Unit Json :=
  match parseJsonVal (2 * s.data.length + 8) s.data with
  | .error _ => .error ()
  | .ok (v, rem) => if skipWs rem = [] then .ok v else .error ()

end Edura

namespace Edura

/-! ### parseJsonResponse (gemini.ts lines 879-894) -/

/-- Case-insensitive test that position `i` of `l` holds (a letter
folding to) `c`. -/
def ciCharAt (l : List Char) (i : Nat) (c : Char) : Bool :=
  match l.get? i with
  | some a => lcChar a == c
  | none => false

/-- Exact test that position `i` of `l` holds `c`. -/
def charAt (l : List Char) (i : Nat) (c : Char) : Bool :=
  match l.get? i with
  | some a => a == c
  | none => false

/-- Test for a case-insensitive occurrence of "```json" at the head,
the match target of the `/```json/gi` replacement. -/
def startsWithFence (l : List Char) : Bool :=
  ciCharAt l 0 '`' && ciCharAt l 1 '`' && ciCharAt l 2 '`' &&
  ciCharAt l 3 'j' && ciCharAt l 4 's' && ciCharAt l 5 'o' && ciCharAt l 6 'n'

/-- Test for "```" at the head, the match target of the `/```/g`
removal. -/
def startsWithTicks (l : List Char) : Bool :=
  charAt l 0 '`' && charAt l 1 '`' && charAt l 2 '`'

/-- Fuel-indexed engine of the `/```json/gi` replacement.  The fuel
only bounds the number of scan steps; it is always instantiated with
the text length, which suffices because every step consumes at least
one character. -/
def replaceFenceF : Nat → List Char → List Char
  | 0, l => l
  | _ + 1, [] => []
  | fuel + 1, c :: rest =>
    if startsWithFence (c :: rest) then '`' :: '`' :: '`' :: replaceFenceF fuel (rest.drop 6)
    else c :: replaceFenceF fuel rest

/-- Model of `text.replace(/```json/gi, '```')`: left-to-right
non-overlapping replacement. -/
def replaceFence (l : List Char) : List Char :=
  replaceFenceF l.length l

/-- Fuel-indexed engine of the `/```/g` deletion. -/
def removeTicksF : Nat → List Char → List Char
  | 0, l => l
  | _ + 1, [] => []
  | fuel + 1, c :: rest =>
    if startsWithTicks (c :: rest) then removeTicksF fuel (rest.drop 2)
    else c :: removeTicksF fuel rest

/-- Model of `.replace(/```/g, '')`: left-to-right non-overlapping
deletion. -/
def removeTicks (l : List Char) : List Char :=
  removeTicksF l.length l

def lastIndexOfChar (l : List Char) (t : Char) : Option Nat :=
  match l.reverse.findIdx? (· == t) with
  | some k => some (l.length - 1 - k)
  | none => none

/-- Model of the match `cleaned.match(/(\{[\s\S]*\}|\[[\s\S]*\])/)`:
the leftmost position holding `{` with a later `}` (or `[` with a
later `]`) starts the match, which greedily extends to the last such
closing character in the text.  The regex does not balance
delimiters. -/
def regexSpan : List Char → Option (List Char)
  | [] => none
  | c :: rest =>
    if c = '{' then
      match lastIndexOfChar rest '}' with
      | some i => some ('{' :: rest.take (i + 1))
      | none => regexSpan rest
    else if c = '[' then
      match lastIndexOfChar rest ']' with
      | some i => some ('[' :: rest.take (i + 1))
      | none => regexSpan rest
    else regexSpan rest

/-- Fence-stripped and trimmed response text, the `cleaned` local of
`parseJsonResponse`. -/
def cleanResponseText (text : String) : String :=
  ⟨trimCharList (removeTicks (replaceFence text.data))⟩

/-- Model of `parseJsonResponse` (gemini.ts 879-894): reject the empty
response, strip fences and trim, try a direct `JSON.parse`, and on
failure parse the greedy brace/bracket span; a missing span raises the
extraction error and a second parse failure raises the `SyntaxError`
of `JSON.parse`. -/
def parseJsonResponse (text : String) : Except JsError Json :=
  if text = "" then .error (.thrown "Empty response from Gemini.")
  else
    match jsonParse (cleanResponseText text) with
    | .ok v => .ok v
    | .error _ =>
      match regexSpan (cleanResponseText text).data with
      | none => .error (.thrown "Failed to parse JSON from Gemini response.")
      | some sub =>
        match jsonParse ⟨sub⟩ with
        | .ok v => .ok v
        | .error _ => .error .jsonSyntaxError

/-! ### Shared normalization helpers (gemini.ts 896-904) -/

inductive Difficulty where
  | easy
  | medium
  | hard
deriving DecidableEq, Repr

/-- Model of `normalizeDifficulty` applied to the raw field value: the
function lower-cases `value?.toLowerCase()` and keeps it only when it
is one of the three difficulty labels, defaulting to `medium`.
Calling `.toLowerCase()` on a non-string non-nullish value throws. -/
def normalizeDifficultyJ (v : Option Json) : Except JsError Difficulty :=
  match v with
  | none => .ok .medium
  | some .null => .ok .medium
  | some (.str s) =>
    .ok (if jsToLower s = "easy" then .easy
         else if jsToLower s = "medium" then .medium
         else if jsToLower s = "hard" then .hard
         else .medium)
  | some _ => .error .typeError

/-- Model of `toNumber(value, fallback)`: `Number(value)` when finite,
the fallback otherwise (`undefined` coerces to `NaN`). -/
def toNumberJ (v : Option Json) (fb : ℚ) : ℚ :=
  match v with
  | none => fb
  | some j =>
    match jsToNumber j with
    | .val q => q
    | _ => fb

/-! ### generateQuiz normalization (gemini.ts 1061-1094) -/

/-- Canonical quiz item produced by `generateQuiz`. -/
structure QuizItem where
  question : String
  options : List String
  correctAnswer : JsNum
  explanation : String
deriving DecidableEq, Repr

/-- Model of one step of the options mapping
`item.options.map((option) => option?.trim() || '')`: nullish entries
become the empty string, strings are trimmed, and any other value
throws `TypeError` from `.trim()`. -/
def quizOptionEntry (o : Json) : Except JsError String :=
  match o with
  | .null => .ok ""
  | .str s => .ok (jsTrim s)
  | _ => .error .typeError

/-- Model of the options expression of `generateQuiz`:
`Array.isArray(item.options) ? item.options.map((option) => option?.trim() || '').filter(Boolean) : []`. -/
def quizOptionsOf (optionsRaw : Option Json) : Except JsError (List String) :=
  match optionsRaw with
  | some (.arr l) => do
    let mapped ← mapME quizOptionEntry l
    pure (mapped.filter (fun s => s ≠ ""))
  | _ => pure []

/-- Model of the `correctAnswer` expression of `generateQuiz`: the
value itself when `typeof item.correctAnswer === 'number'`, otherwise
`Number(item.correct_answer ?? 0)`. -/
def quizCorrectAnswerOf (item : Json) (caRaw : Option Json) : Except JsError JsNum :=
  match caRaw with
  | some (.num n) => pure n
  | _ => do
    let snake ← getField item "correct_answer"
    pure (jsToNumber (nullish snake (.num (.val 0))))

/-- Model of the per-item mapping of `generateQuiz`: question and
explanation via `?.trim() || ''`, options mapped and then filtered by
truthiness, and `correctAnswer` taken directly when `typeof` is
`number`, otherwise coerced with `Number(item.correct_answer ?? 0)`. -/
def quizMapItem (item : Json) : Except JsError QuizItem := do
  let question ← trimOrEmpty (← getField item "question")
  let options ← quizOptionsOf (← getField item "options")
  let correctAnswer ← quizCorrectAnswerOf item (← getField item "correctAnswer")
  let explanation ← trimOrEmpty (← getField item "explanation")
  pure ⟨question, options, correctAnswer, explanation⟩

/-- Survival predicate of `generateQuiz`'s filter:
`item.question && item.options.length >= 2 && Number.isInteger(item.correctAnswer)`. -/
def quizKeep (q : QuizItem) : Bool :=
  q.question ≠ "" && q.options.length ≥ 2 && numIsInteger q.correctAnswer

/-- Model of `generateQuiz` after `parseJsonResponse`: map the items,
filter, and reject an empty survivor list. -/
def quizNormalize (items : List Json) : Except JsError (List QuizItem) := do
  let mapped ← mapME quizMapItem items
  let quiz := mapped.filter quizKeep
  if quiz.length = 0 then
    .error (.thrown "Gemini did not return quiz questions.")
  else
    pure quiz

/-- Model of `items.map(...)` requiring the parsed payload to be an
array: calling `.map` on anything else throws `TypeError`. -/
def asJsArray (v : Json) : Except JsError (List Json) :=
  match v with
  | .arr l => .ok l
  | .null => .error .typeError
  | _ => .error .typeError

/-- Quiz pipeline from raw response text (parse to items to
normalized list), before the public operation's catch-all. -/
def quizFromText (text : String) : Except JsError (List QuizItem) := do
  let payload ← parseJsonResponse text
  let items ← asJsArray payload
  quizNormalize items

/-! ### generateFlashcards normalization (gemini.ts 1037-1059) -/

structure FlashcardItem where
  question : String
  answer : String
deriving DecidableEq, Repr

/-- Model of the per-card mapping of `generateFlashcards`. -/
def flashMapCard (card : Json) : Except JsError FlashcardItem := do
  let question ← trimOrEmpty (← getField card "question")
  let answer ← trimOrEmpty (← getField card "answer")
  pure ⟨question, answer⟩

def flashKeep (c : FlashcardItem) : Bool :=
  c.question ≠ "" && c.answer ≠ ""

/-- Model of `generateFlashcards` after `parseJsonResponse`: map the
cards, filter to those with both fields, and reject an empty survivor
list. -/
def flashNormalize (cards : List Json) : Except JsError (List FlashcardItem) := do
  let mapped ← mapME flashMapCard cards
  let flashcards := mapped.filter flashKeep
  if flashcards.length = 0 then
    .error (.thrown "Gemini did not return flashcards.")
  else
    pure flashcards

/-- Flashcard pipeline from raw response text. -/
def flashFromText (text : String) : Except JsError (List FlashcardItem) := do
  let payload ← parseJsonResponse text
  let cards ← asJsArray payload
  flashNormalize cards

end Edura

namespace Edura

/-! ### generateRoadmap normalization (gemini.ts 927-960) -/

/-- Model of the idiom `x?.trim() || dflt` with a string default. -/
def trimOrElse (v : Option Json) (dflt : String) : Except JsError String := do
  match ← optChainTrim v with
  | some s => pure (if s ≠ "" then s else dflt)
  | none => pure dflt

/-- Canonical roadmap milestone produced by `generateRoadmap`. -/
structure MilestoneOut where
  id : String
  title : String
  description : String
  difficulty : Difficulty
  estimatedHours : ℚ
  completed : Bool
deriving DecidableEq, Repr

/-- Model of the per-milestone mapping of `generateRoadmap`. -/
def roadmapMapMilestone (index : Nat) (m : Json) : Except JsError MilestoneOut := do
  let idF ← getField m "id"
  let id := jsToStringV (nullish idF (.num (.val (index + 1))))
  let title ← trimOrElse (← getField m "title") ("Milestone " ++ toString (index + 1))
  let description ← trimOrElse (← getField m "description")
      "Focus on tangible progress for this step."
  let difficulty ← normalizeDifficultyJ (← getField m "difficulty")
  let estimatedHours :=
    toNumberJ (nullishOpt (← getField m "estimatedHours") (← getField m "estimated_hours")) 6
  pure ⟨id, title, description, difficulty, estimatedHours, false⟩

/-- Model of `generateRoadmap` after `parseJsonResponse`: a non-array
or empty payload raises the empty-roadmap error, otherwise every
milestone is mapped (none are dropped). -/
def roadmapNormalize (payload : Json) : Except JsError (List MilestoneOut) :=
  match payload with
  | .arr l =>
    if l.length = 0 then .error (.thrown "Gemini returned an empty roadmap.")
    else mapME (fun p => roadmapMapMilestone p.1 p.2) l.enum
  | _ => .error (.thrown "Gemini returned an empty roadmap.")

/-- Roadmap pipeline from raw response text. -/
def roadmapFromText (text : String) : Except JsError (List MilestoneOut) := do
  roadmapNormalize (← parseJsonResponse text)

/-! ### generateDetailedRoadmap stage normalization (gemini.ts 962-1024) -/

/-- Canonical stage produced by the `roadmap.stages` rewrite of
`generateDetailedRoadmap`.  `orig` is the spread `...stage`; the
remaining fields override it. -/
structure StageOut where
  orig : Json
  id : Json
  completed : Bool
  topics : Json
  exercises : Json
  projects : Json
  resources : Json
  estimatedHours : ℚ
  difficulty : Difficulty
deriving DecidableEq, Repr

/-- Model of the per-stage mapping of `generateDetailedRoadmap`. -/
def detailedMapStage (index : Nat) (stage : Json) : Except JsError StageOut := do
  let id := nullish (← getField stage "id") (.str (toString (index + 1)))
  let topics := nullish (← getField stage "topics") (.arr [])
  let exercises := nullish (← getField stage "exercises") (.arr [])
  let projects := nullish (← getField stage "projects") (.arr [])
  let resources := nullish (← getField stage "resources") (.arr [])
  let estimatedHours :=
    toNumberJ (nullishOpt (← getField stage "estimatedHours") (← getField stage "estimated_hours")) 5
  let difficulty ← normalizeDifficultyJ (← getField stage "difficulty")
  pure ⟨stage, id, false, topics, exercises, projects, resources, estimatedHours, difficulty⟩

/-- Model of the `roadmap.stages = (roadmap.stages || []).map(...)`
rewrite: the returned roadmap object carries exactly the stage list
this computes.  A `null` payload throws on the property read; a
non-object non-array payload throws on the strict-mode property
write; a truthy non-array `stages` value throws on `.map`. -/
def detailedStagesNormalize (roadmap : Json) : Except JsError (List StageOut) :=
  match roadmap with
  | .obj fs =>
    (match lookupField fs "stages" with
    | none => .ok []
    | some j =>
      if jsTruthy j then
        match j with
        | .arr l => mapME (fun p => detailedMapStage p.1 p.2) l.enum
        | _ => .error .typeError
      else .ok [])
  | .arr _ => .ok []
  | _ => .error .typeError

/-- Detailed-roadmap stage pipeline from raw response text. -/
def detailedFromText (text : String) : Except JsError (List StageOut) := do
  detailedStagesNormalize (← parseJsonResponse text)

/-! ### generateCourseOutline normalization (gemini.ts 1107-1274) -/

/-- Caller-supplied input of `generateCourseOutline`
(`CourseGenerationInput`); the optional fields model `includeIDE?` and
`category?`. -/
structure CourseInput where
  topic : String
  goal : String
  audience : String
  level : String
  durationWeeks : ℚ
  preferredLanguage : String
  focusArea : String
  includeProjects : Bool
  includeIDE : Option Bool
  category : Option String
deriving DecidableEq, Repr

/-- String interpolation `${x}` of a possibly-`undefined` value. -/
def optInterp (v : Option Json) : String :=
  match v with
  | some j => jsToStringV j
  | none => "undefined"

/-- Model of the idiom `(x || []).…`: a falsy value becomes the empty
list, an array is used as is, and `.map`/`.filter` on a truthy
non-array throws. -/
def orEmptyList (v : Option Json) : Except JsError (List Json) :=
  match v with
  | none => .ok []
  | some j =>
    if jsTruthy j then
      match j with
      | .arr l => .ok l
      | _ => .error .typeError
    else .ok []

/-- Numeric comparison `v >= bound` on a possibly-`undefined` value,
as in `q.options?.length >= 2` (`undefined`/`NaN` compare false). -/
def jsGeNum (v : Option Json) (bound : ℚ) : Bool :=
  match v with
  | none => false
  | some j =>
    match jsToNumber j with
    | .val q => bound.num * q.den ≤ q.num * bound.den
    | .inf => true
    | _ => false

/-- Survival predicate of the outline quiz filter
`(q) => q.question && q.options?.length >= 2`. -/
def outlineQuizKeep (q : Json) : Except JsError Bool := do
  let question ← getField q "question"
  if optTruthy question then do
    let options ← getField q "options"
    let lenV ← getFieldOpt options "length"
    pure (jsGeNum lenV 2)
  else
    pure false

/-- Expression `module.title || ` `` `Module ${index + 1}` `` used by
the synthesized placeholder quiz question. -/
def titleOrModuleN (title : Option Json) (index : Nat) : String :=
  match title with
  | some j => if jsTruthy j then jsToStringV j else "Module " ++ toString (index + 1)
  | none => "Module " ++ toString (index + 1)

/-- Placeholder quiz question pushed when a module has no surviving
quiz question (gemini.ts 1160-1165). -/
def placeholderQuiz (title : Option Json) (index : Nat) : Json :=
  .obj
    [("question", .str ("What is the key idea from " ++ titleOrModuleN title index ++ "?")),
     ("options", .arr [.str "Concept A", .str "Concept B", .str "Concept C", .str "Concept D"]),
     ("correctAnswer", .num (.val 0)),
     ("explanation", .str "Revisit the main concept taught in this module to reinforce understanding.")]

/-- Normalized resource entry of a course module. -/
structure ResourceOut where
  title : Json
  type : Json
  url : Option Json
  description : Json
deriving DecidableEq, Repr

/-- Model of the per-resource mapping (gemini.ts 1214-1219). -/
def outlineMapResource (r : Json) : Except JsError ResourceOut := do
  let title := orDefault (← getField r "title") (.str "Recommended resource")
  let rtype := orDefault (← getField r "type") (.str "article")
  let url ← getField r "url"
  let description := orDefault (← getField r "description") (.str "")
  pure ⟨title, rtype, url, description⟩

/-- Normalized practice task of a course module. -/
structure PracticeOut where
  title : Json
  description : Json
  difficulty : Difficulty
deriving DecidableEq, Repr

/-- Model of the per-practice-task mapping (gemini.ts 1221-1225). -/
def outlineMapPractice (t : Json) : Except JsError PracticeOut := do
  let title := orDefault (← getField t "title") (.str "Practice task")
  let description := orDefault (← getField t "description") (.str "Apply what you learned in this module.")
  let difficulty ← normalizeDifficultyJ (← getField t "difficulty")
  pure ⟨title, description, difficulty⟩

/-- Survival predicate of the flashcard filter
`(card) => card.question && card.answer`. -/
def outlineFlashKeep (c : Json) : Except JsError Bool := do
  let q ← getField c "question"
  if optTruthy q then do
    let a ← getField c "answer"
    pure (optTruthy a)
  else
    pure false

/-- Keyword list of the `isCodingTopic` regex (gemini.ts 1182). -/
def codingKeywords : List String :=
  ["code", "program", "dev", "script", "software", "app", "python", "javascript",
   "java", "c++", "typescript", "data", "ml", "ai", "cloud", "backend", "frontend",
   "fullstack"]

/-- Model of the case-insensitive `isCodingTopic` regex test over
`` `${input.topic} ${input.focusArea} ${input.category}` ``. -/
def isCodingTopicFor (input : CourseInput) : Bool :=
  let hay := jsToLower (input.topic ++ " " ++ input.focusArea ++ " " ++
    (match input.category with | some c => c | none => "undefined"))
  codingKeywords.any (fun k => strContains hay k)

/-- Model of the supplied-setup guard of `generateCourseOutline`:
`module.ideSetup && module.ideSetup.tool && module.ideSetup.instructions ? module.ideSetup : null`. -/
def suppliedSetupOf (ideF : Option Json) : Except JsError (Option Json) :=
  match ideF with
  | some j =>
    if jsTruthy j then do
      let tool ← getField j "tool"
      if optTruthy tool then do
        let instructions ← getField j "instructions"
        pure (if optTruthy instructions then some j else none)
      else pure none
    else pure none
  | none => pure none

/-- Normalized course module: `orig` is the spread `...module`
(whose `title` pass-through the coverage pass reads); the remaining
fields override it. -/
structure ModuleOut where
  orig : Json
  id : Json
  title : Option Json
  summary : Json
  lessonHighlights : Json
  lessonNarrative : String
  keyConcepts : Json
  topics : Json
  activities : Json
  resources : List ResourceOut
  flashcards : List Json
  practiceTasks : List PracticeOut
  quizQuestions : List Json
  estimatedHours : ℚ
  ideSetup : Option Json
deriving DecidableEq, Repr

/-- Model of the per-module mapping of `generateCourseOutline`
(gemini.ts 1157-1231), in source evaluation order: quiz filter plus
placeholder, lesson highlights, lesson narrative, IDE setup, then the
returned object literal. -/
def outlineMapModule (input : CourseInput) (index : Nat) (m : Json) : Except JsError ModuleOut := do
  let titleF ← getField m "title"
  let quizRaw ← orEmptyList (← getField m "quizQuestions")
  let survivors ← filterME outlineQuizKeep quizRaw
  let quiz := if survivors.length = 0 then [placeholderQuiz titleF index] else survivors
  let lhF ← getField m "lessonHighlights"
  let lhLen ← getFieldOpt lhF "length"
  let lessonHighlights :=
    if optTruthy lhLen then lhF.getD .null
    else .arr [.str "Introduce the concept with a relatable scenario.",
               .str "Explain the theory step-by-step using plain language.",
               .str "Demonstrate with a worked example before assigning practice."]
  let summaryF ← getField m "summary"
  let lnT ← optChainTrim (← getField m "lessonNarrative")
  let lessonNarrative :=
    match lnT with
    | some s =>
      if s ≠ "" then s
      else optInterp summaryF ++ "\n\nGuide the learner through the concept with an approachable explanation, relate it to a real scenario, and walk through a short example before you ask them to build something on their own."
    | none => optInterp summaryF ++ "\n\nGuide the learner through the concept with an approachable explanation, relate it to a real scenario, and walk through a short example before you ask them to build something on their own."
  let isCoding := isCodingTopicFor input
  let wantsIde := match input.includeIDE with | some b => b | none => isCoding
  let ideF ← getField m "ideSetup"
  let suppliedSetup ← suppliedSetupOf ideF
  let ideSetup : Option Json :=
    if wantsIde then
      match suppliedSetup with
      | some j => some j
      | none =>
        if isCoding then
          some (.obj [("tool", .str "VS Code + Online Sandbox"),
            ("instructions", .str "Install recommended language extensions, enable auto-formatting, and open an online IDE (StackBlitz/Codesandbox/Replit) for quick tests.")])
        else
          some (.obj [("tool", .str "Preferred study workspace"),
            ("instructions", .str "Use a note-taking or simulation tool that matches this module to apply the ideas immediately.")])
    else none
  let id := nullish (← getField m "id") (.str (toString (index + 1)))
  let sT ← optChainTrim summaryF
  let descF ← getField m "description"
  let summary : Json :=
    match sT with
    | some s => if s ≠ "" then .str s else orDefault descF (.str "Learning module overview")
    | none => orDefault descF (.str "Learning module overview")
  let kcF ← getField m "keyConcepts"
  let tpF ← getField m "topics"
  let keyConcepts := nullish (nullishOpt kcF tpF) (.arr [])
  let topics := nullish (nullishOpt tpF kcF) (.arr [])
  let activities := nullish (← getField m "activities") (.arr [])
  let resources ← mapME outlineMapResource (← orEmptyList (← getField m "resources"))
  let flashcards ← filterME outlineFlashKeep (← orEmptyList (← getField m "flashcards"))
  let practiceTasks ← mapME outlineMapPractice (← orEmptyList (← getField m "practiceTasks"))
  let estimatedHours := toNumberJ (← getField m "estimatedHours") 4
  pure ⟨m, id, titleF, summary, lessonHighlights, lessonNarrative, keyConcepts, topics,
    activities, resources, flashcards, practiceTasks, quiz, estimatedHours, ideSetup⟩

/-- `resource.type?.toLowerCase()` on a normalized resource. -/
def resTypeLower (r : ResourceOut) : Except JsError (Option String) :=
  match r.type with
  | .null => .ok none
  | .str s => .ok (some (jsToLower s))
  | _ => .error .typeError

def resIsVideo (r : ResourceOut) : Except JsError Bool :=
  (resTypeLower r).map (fun o => o == some "video")

def resIsArticle (r : ResourceOut) : Except JsError Bool :=
  (resTypeLower r).map (fun o => ["article", "doc", "documentation"].contains (o.getD ""))

/-- Left-to-right short-circuit `Array.prototype.some` with a
fallible predicate. -/
def anyME (p : α → Except JsError Bool) : List α → Except JsError Bool
  | [] => .ok false
  | x :: rest => do
    if ← p x then pure true else anyME p rest

/-- Characters `encodeURIComponent` leaves unescaped. -/
def isUriUnreserved (c : Char) : Bool :=
  ('A' ≤ c && c ≤ 'Z') || ('a' ≤ c && c ≤ 'z') || ('0' ≤ c && c ≤ '9') ||
  c = '-' || c = '_' || c = '.' || c = '!' || c = '~' || c = '*' || c = '\'' || c = '(' || c = ')'

def utf8Bytes (c : Char) : List Nat :=
  let n := c.toNat
  if n < 0x80 then [n]
  else if n < 0x800 then [0xC0 + n / 0x40, 0x80 + n % 0x40]
  else if n < 0x10000 then [0xE0 + n / 0x1000, 0x80 + (n / 0x40) % 0x40, 0x80 + n % 0x40]
  else [0xF0 + n / 0x40000, 0x80 + (n / 0x1000) % 0x40, 0x80 + (n / 0x40) % 0x40, 0x80 + n % 0x40]

def hexUpper (n : Nat) : Char :=
  if n < 10 then Char.ofNat ('0'.toNat + n) else Char.ofNat ('A'.toNat + n - 10)

/-- Model of `encodeURIComponent` (UTF-8 percent-encoding). -/
def encodeURIComponent (s : String) : String :=
  ⟨s.data.foldr
    (fun c acc =>
      if isUriUnreserved c then c :: acc
      else (utf8Bytes c).foldr (fun b bacc => '%' :: hexUpper (b / 16) :: hexUpper (b % 16) :: bacc) acc)
    []⟩

/-- Video resource synthesized by the coverage pass (gemini.ts
1237-1242); a function of the module's raw `title` field only. -/
def videoFillerRes (title : Option Json) : ResourceOut :=
  ⟨.str (optInterp title ++ " walkthrough (YouTube)"),
   .str "video",
   some (.str ("https://www.youtube.com/results?search_query=" ++ encodeURIComponent (optInterp title))),
   .str "Search results for a video lesson aligned with this module."⟩

/-- Article resource synthesized by the coverage pass (gemini.ts
1244-1250); a function of the module's raw `title` field only. -/
def articleFillerRes (title : Option Json) : ResourceOut :=
  ⟨.str (optInterp title ++ " reference guide"),
   .str "article",
   some (.str ("https://www.google.com/search?q=" ++ encodeURIComponent (optInterp title ++ " tutorial"))),
   .str "Additional reading material to reinforce the lesson."⟩

/-- Model of the coverage pass over one module (gemini.ts 1233-1252):
both `some` scans run before any push. -/
def moduleCoverage (m : ModuleOut) : Except JsError ModuleOut := do
  let hasVideo ← anyME resIsVideo m.resources
  let hasArticle ← anyME resIsArticle m.resources
  let r1 := if hasVideo then m.resources else m.resources ++ [videoFillerRes m.title]
  let r2 := if hasArticle then r1 else r1 ++ [articleFillerRes m.title]
  pure { m with resources := r2 }

/-- Normalized course outline returned by `generateCourseOutline`. -/
structure OutlineOut where
  title : String
  description : String
  level : Json
  language : Json
  category : Json
  tags : Json
  estimatedHours : ℚ
  learningObjectives : Json
  resources : Json
  modules : List ModuleOut
deriving DecidableEq, Repr

/-- Model of `generateCourseOutline` after `parseJsonResponse`
(gemini.ts 1157-1269): module mapping, coverage pass, empty-module
check, then assembly of the returned outline object. -/
def outlineNormalize (input : CourseInput) (outline : Json) : Except JsError OutlineOut := do
  let rawModules ← orEmptyList (← getField outline "modules")
  let mapped ← mapME (fun p => outlineMapModule input p.1 p.2) rawModules.enum
  let modules ← mapME moduleCoverage mapped
  if modules.length = 0 then .error (.thrown "Gemini did not return modules.")
  else do
    let title ← trimOrElse (← getField outline "title") ("AI Course: " ++ input.topic)
    let description ← trimOrElse (← getField outline "description") input.goal
    let level := nullish (← getField outline "level") (.str input.level)
    let language := nullish (← getField outline "language") (.str input.preferredLanguage)
    let category := nullish (← getField outline "category")
      (match input.category with | some c => .str c | none => .str "tech")
    let tagsF ← getField outline "tags"
    let tagsLen ← getFieldOpt tagsF "length"
    let tags := if optTruthy tagsLen then tagsF.getD .null
      else .arr [.str input.topic, .str input.focusArea]
    let ehSum := modules.foldl (fun acc md => acc + (if md.estimatedHours ≠ 0 then md.estimatedHours else 4)) 0
    let estimatedHours := toNumberJ (← getField outline "estimatedHours") ehSum
    let learningObjectives := nullish (← getField outline "learningObjectives") (.arr [.str input.goal])
    let resources := nullish (← getField outline "resources") (.arr [])
    pure ⟨title, description, level, language, category, tags, estimatedHours,
      learningObjectives, resources, modules⟩

/-- Course-outline pipeline from raw response text. -/
def outlineFromText (input : CourseInput) (text : String) : Except JsError OutlineOut := do
  outlineNormalize input (← parseJsonResponse text)

end Edura

namespace Edura

/-! ### ensureApiReady / generateText (gemini.ts 720-729, 853-877) -/

/-- Process-wide Gemini configuration: `apiKey` is the value of
`import.meta.env.VITE_GEMINI_API_KEY` (`none` when the variable is
not set) and `modelId` is the resolved model name. -/
structure ApiConfig where
  apiKey : Option String
  modelId : String
deriving DecidableEq, Repr

/-- Condition of `if (!apiKey)`: the key is absent or the empty
string. -/
def apiKeyMissing (cfg : ApiConfig) : Bool :=
  match cfg.apiKey with
  | none => true
  | some s => s = ""

/-- Message thrown by `ensureApiReady` when no credential is
configured. -/
def configErrMsg : String :=
  "Gemini API key is not configured. Please set VITE_GEMINI_API_KEY in your .env file."

/-- Observable external effect of one generation operation: a
completion request dispatched to the provider. -/
inductive CallEvent where
  | providerCall (model : String) (prompt : String)
deriving DecidableEq, Repr

/-- Model of `generateText` (gemini.ts 859-877): `ensureApiReady`
throws the configuration error before any provider call; otherwise
one completion request is dispatched and its text (the provider is
modelled as returning the extracted response text directly, or the
message of a thrown provider error) is trimmed, `(raw || '').trim()`.
The second component lists the provider calls performed. -/
def generateTextT (cfg : ApiConfig) (provider : String → String → Except String String)
    (prompt : String) : Except String String × List CallEvent :=
  if apiKeyMissing cfg then
    (.error configErrMsg, [])
  else
    match provider cfg.modelId prompt with
    | .error e => (.error e, [.providerCall cfg.modelId prompt])
    | .ok raw => (.ok (jsTrim raw), [.providerCall cfg.modelId prompt])

/-! ### Prompt builders and public operations -/

/-- Interpolation `${q}` of a finite JS number. -/
def qInterp (q : ℚ) : String :=
  numToString (.val q)

/-- Message of one chat turn (`GeminiMessage`). -/
structure ChatMsg where
  role : String
  content : String
deriving DecidableEq, Repr

/-- Prompt of `chatWithGemini` (gemini.ts 908-917). -/
def chatPrompt (messages : List ChatMsg) : String :=
  let ctx := String.intercalate "\n\n"
    (messages.map (fun m => (if m.role = "user" then "User" else "Assistant") ++ ": " ++ m.content))
  "You are Edura's friendly AI study mentor. Provide concise, encouraging, and structured answers.\n\nConversation so far:\n" ++ ctx ++ "\n\nAssistant:"

/-- Model of `chatWithGemini`: empty replies fall back to a stock
sentence, and any thrown error is rewritten by the catch-all. -/
def chatOp (cfg : ApiConfig) (provider : String → String → Except String String)
    (messages : List ChatMsg) : Except String String × List CallEvent :=
  let (r, evs) := generateTextT cfg provider (chatPrompt messages)
  match r with
  | .error _ => (.error "Failed to get AI response. Please try again.", evs)
  | .ok reply => (.ok (if reply ≠ "" then reply else "I could not generate a response right now. Please try again."), evs)

/-- Prompt of `generateSummary` (gemini.ts 1028). -/
def summaryPrompt (content : String) : String :=
  "Summarize the following study material into clear sections: Overview, Key Concepts, Action Items, and Practice Ideas. Be concise and keep the user's tone encouraging. Content:\n\n" ++ content

/-- Model of `generateSummary`. -/
def summaryOp (cfg : ApiConfig) (provider : String → String → Except String String)
    (content : String) : Except String String × List CallEvent :=
  let (r, evs) := generateTextT cfg provider (summaryPrompt content)
  match r with
  | .error _ => (.error "Failed to generate summary. Please try again.", evs)
  | .ok s => (.ok (if s ≠ "" then s else "No summary available."), evs)

/-- Prompt of `translateText` (gemini.ts 1098). -/
def translatePrompt (text targetLanguage : String) : String :=
  "Translate the following text to " ++ targetLanguage ++ ". Return only the translated sentence without extra commentary.\n\n" ++ text

/-- Model of `translateText`. -/
def translateOp (cfg : ApiConfig) (provider : String → String → Except String String)
    (text targetLanguage : String) : Except String String × List CallEvent :=
  let (r, evs) := generateTextT cfg provider (translatePrompt text targetLanguage)
  match r with
  | .error _ => (.error "Failed to translate text. Please try again.", evs)
  | .ok s => (.ok s, evs)

/-- Prompt of `generateFlashcards` (gemini.ts 1039). -/
def flashPrompt (content : String) : String :=
  "Create 8 flashcards from the following content. Return ONLY valid JSON array like [ \x7b \"question\": \"...\", \"answer\": \"...\" \x7d ]. Questions should be short and answers precise. Content:\n\n" ++ content

/-- Model of `generateFlashcards` end to end. -/
def flashOp (cfg : ApiConfig) (provider : String → String → Except String String)
    (content : String) : Except String (List FlashcardItem) × List CallEvent :=
  let (r, evs) := generateTextT cfg provider (flashPrompt content)
  match r with
  | .error _ => (.error "Failed to generate flashcards. Please try again.", evs)
  | .ok text =>
    match flashFromText text with
    | .ok cards => (.ok cards, evs)
    | .error _ => (.error "Failed to generate flashcards. Please try again.", evs)

/-- Prompt of `generateQuiz` (gemini.ts 1063-1071). -/
def quizPrompt (content : String) : String :=
  "Create a quiz based on the following content. Return ONLY JSON array with 5-8 items.\nEach item must match:\n\x7b\n  \"question\": \"...\",\n  \"options\": [\"A\", \"B\", \"C\", \"D\"],\n  \"correctAnswer\": 0,\n  \"explanation\": \"...\"\n\x7d\nThe correctAnswer is the zero-based index. Content:\n\n" ++ content

/-- Model of `generateQuiz` end to end. -/
def quizOp (cfg : ApiConfig) (provider : String → String → Except String String)
    (content : String) : Except String (List QuizItem) × List CallEvent :=
  let (r, evs) := generateTextT cfg provider (quizPrompt content)
  match r with
  | .error _ => (.error "Failed to generate quiz. Please try again.", evs)
  | .ok text =>
    match quizFromText text with
    | .ok quiz => (.ok quiz, evs)
    | .error _ => (.error "Failed to generate quiz. Please try again.", evs)

/-- Prompt of `generateRoadmap` (gemini.ts 929-939). -/
def roadmapPrompt (goal : String) : String :=
  "Create a concise learning roadmap for the goal \"" ++ goal ++ "\".\nReturn a JSON array with 4-6 milestones, each having:\n\x7b\n  \"id\": \"1\",\n  \"title\": \"Milestone title\",\n  \"description\": \"What this milestone covers\",\n  \"difficulty\": \"easy|medium|hard\",\n  \"estimatedHours\": 6,\n  \"completed\": false\n\x7d\nOnly return the JSON array."

/-- Model of `generateRoadmap` end to end. -/
def roadmapOp (cfg : ApiConfig) (provider : String → String → Except String String)
    (goal : String) : Except String (List MilestoneOut) × List CallEvent :=
  let (r, evs) := generateTextT cfg provider (roadmapPrompt goal)
  match r with
  | .error _ => (.error "Failed to generate roadmap. Please try again.", evs)
  | .ok text =>
    match roadmapFromText text with
    | .ok ms => (.ok ms, evs)
    | .error _ => (.error "Failed to generate roadmap. Please try again.", evs)

/-- Questionnaire input of `generateDetailedRoadmap`
(`RoadmapQuestionnaire`). -/
structure RoadmapAnswers where
  topic : String
  skillLevel : String
  duration : ℚ
  durationUnit : String
  hoursPerDay : Option ℚ
  hoursPerWeek : Option ℚ
deriving DecidableEq, Repr

/-- Truthiness of an optional JS number field. -/
def optQTruthy (v : Option ℚ) : Bool :=
  match v with
  | none => false
  | some q => q ≠ 0

/-- Idiom `v || d` on an optional JS number field. -/
def orQ (v : Option ℚ) (d : ℚ) : ℚ :=
  match v with
  | none => d
  | some q => if q ≠ 0 then q else d

/-- Prompt of `generateDetailedRoadmap` (gemini.ts 964-1002),
including the derived commitment text, total hours and stage count. -/
def detailedPrompt (answers : RoadmapAnswers) : String :=
  let commitmentText :=
    if optQTruthy answers.hoursPerDay then qInterp (answers.hoursPerDay.getD 0) ++ " hours per day"
    else if optQTruthy answers.hoursPerWeek then qInterp (answers.hoursPerWeek.getD 0) ++ " hours per week"
    else "flexible schedule"
  let totalHours :=
    if answers.durationUnit = "days" then answers.duration * orQ answers.hoursPerDay 2
    else if answers.durationUnit = "weeks" then answers.duration * orQ answers.hoursPerWeek 10
    else answers.duration * 4 * orQ answers.hoursPerWeek 10
  let stageType := if answers.durationUnit = "days" then "Day" else "Week"
  let numStages :=
    if answers.durationUnit = "days" then answers.duration
    else if answers.durationUnit = "weeks" then answers.duration
    else answers.duration * 4
  "You are an expert learning path designer. Create a detailed, personalized roadmap based on:\n- Topic: " ++ answers.topic ++ "\n- Skill level: " ++ answers.skillLevel ++ "\n- Timeline: " ++ qInterp answers.duration ++ " " ++ answers.durationUnit ++ "\n- Time commitment: " ++ commitmentText ++ "\n- Total hours: " ++ qInterp totalHours ++ "\n\nRequirements:\n1. Break the plan into exactly " ++ qInterp numStages ++ " " ++ jsToLower stageType ++ "s.\n2. Each stage must include title, description, topics, exercises, projects, resources (type, title, url, description), difficulty, estimatedHours, completed flag.\n3. Progress difficulty gradually and keep workload within the time commitment.\n4. Include a final project and categorized resource list.\n5. Return ONLY valid JSON matching this structure:\n\x7b\n  \"title\": \"Learning Roadmap: ...\",\n  \"userSummary\": \x7b \"skill\": \"\", \"level\": \"\", \"timeline\": \"\", \"commitment\": \"\" \x7d,\n  \"stages\": [ \x7b ... \x7d ],\n  \"finalProject\": \x7b \"title\": \"\", \"description\": \"\", \"requirements\": [], \"complexity\": \"easy|medium|hard\" \x7d,\n  \"resourceList\": [ \x7b \"category\": \"\", \"items\": [ \x7b \"title\": \"\", \"url\": \"\", \"description\": \"\" \x7d ] \x7d ]\n\x7d"

/-- Model of `generateDetailedRoadmap` end to end, projected to the
normalized stage list the returned roadmap carries. -/
def detailedOp (cfg : ApiConfig) (provider : String → String → Except String String)
    (answers : RoadmapAnswers) : Except String (List StageOut) × List CallEvent :=
  let (r, evs) := generateTextT cfg provider (detailedPrompt answers)
  match r with
  | .error _ => (.error "Failed to generate detailed roadmap. Please try again.", evs)
  | .ok text =>
    match detailedFromText text with
    | .ok stages => (.ok stages, evs)
    | .error _ => (.error "Failed to generate detailed roadmap. Please try again.", evs)

/-- Prompt of `generateCourseOutline` (gemini.ts 1109-1152). -/
def outlinePrompt (input : CourseInput) : String :=
  "Design a complete course for the topic \"" ++ input.topic ++ "\".\nReturn ONLY valid JSON with this shape:\n\x7b\n  \"title\": \"\",\n  \"description\": \"\",\n  \"level\": \"beginner|intermediate|advanced\",\n  \"language\": \"\",\n  \"category\": \"\",\n  \"tags\": [\"tag1\", \"tag2\"],\n  \"estimatedHours\": 40,\n  \"learningObjectives\": [\"objective1\"],\n  \"modules\": [\n    \x7b\n      \"title\": \"\",\n      \"summary\": \"\",\n      \"lessonHighlights\": [\"explain concept flow\"],\n      \"lessonNarrative\": \"2-3 paragraphs teaching the concept\",\n      \"keyConcepts\": [\"concept\"],\n      \"topics\": [\"topic\"],\n      \"activities\": [\"activity\"],\n      \"project\": \"optional project\",\n      \"resources\": [\x7b \"title\": \"\", \"type\": \"video|article|doc|tool\", \"url\": \"\", \"description\": \"\" \x7d],\n      \"ideSetup\": \x7b \"tool\": \"\", \"instructions\": \"\" \x7d,\n      \"flashcards\": [\x7b \"question\": \"\", \"answer\": \"\" \x7d],\n      \"practiceTasks\": [\x7b \"title\": \"\", \"description\": \"\", \"difficulty\": \"easy|medium|hard\" \x7d],\n      \"quizQuestions\": [\x7b \"question\": \"\", \"options\": [\"A\", \"B\", \"C\", \"D\"], \"correctAnswer\": 0, \"explanation\": \"\" \x7d],\n      \"estimatedHours\": 4\n    \x7d\n  ]\n\x7d\n\nConstraints:\n- Audience: " ++ input.audience ++ "\n- Goal: " ++ input.goal ++ "\n- Skill level: " ++ input.level ++ "\n- Duration: " ++ qInterp input.durationWeeks ++ " weeks\n- Preferred language: " ++ input.preferredLanguage ++ "\n- Focus area: " ++ input.focusArea ++ "\n- Include hands-on projects: " ++ (if input.includeProjects then "yes" else "no") ++ "\n- Teaching requirement: lessonHighlights + lessonNarrative must explain how concepts are taught (mini lesson outline + 2-3 paragraph walkthrough) so learners receive instruction, not just tasks.\n- IDE preference: " ++ (if (match input.includeIDE with | some b => b | none => false) then "Learner requested IDE walkthroughs. Provide ideSetup (tool + instructions) for each relevant module." else "Learner opted out of IDE walkthroughs. Set ideSetup to null.") ++ "\n- Resource requirement: Each module must provide at least one YouTube video (type \"video\" with youtube URL) and one article/doc reference (type \"article\" or \"doc\") with descriptions.\n- Assessment requirement: Every module must include at least one quizQuestions entry for a short formative check.\nEnsure the course fits the duration and skill level, with progressive modules and practical activities."

/-- Model of `generateCourseOutline` end to end. -/
def outlineOp (cfg : ApiConfig) (provider : String → String → Except String String)
    (input : CourseInput) : Except String OutlineOut × List CallEvent :=
  let (r, evs) := generateTextT cfg provider (outlinePrompt input)
  match r with
  | .error _ => (.error "Failed to generate course outline. Please try again.", evs)
  | .ok text =>
    match outlineFromText input text with
    | .ok outline => (.ok outline, evs)
    | .error _ => (.error "Failed to generate course outline. Please try again.", evs)

end Edura

namespace Edura

/-! ### generateAICourse (courseService.ts 64-192) -/

/-- Error object of a rejected Supabase operation (`code` is the
Postgres error code). -/
structure PgError where
  code : String
  message : String
deriving DecidableEq, Repr

deriving instance DecidableEq for Except

/-- Outcome environment of one `generateAICourse` run: the result of
each external call the function makes, in program order.  `genCourse`
covers everything thrown between the job insert and the course insert
(the `generateCourse` pipeline and the pure course-data assembly),
with the thrown error's message. -/
structure CsEnv where
  userId : Option String
  jobId : String
  jobInsert : Option PgError
  genCourse : Except String Unit
  courseId : String
  courseInsert : Option PgError
  modulesInsert : Option PgError
deriving DecidableEq, Repr

/-- Observable persistence/provider effect of one `generateAICourse`
run. -/
inductive DbEvent where
  | insertJob (userId : String) (status : String)
  | llmCall
  | insertCourse
  | insertModules
  | updateJob (jobId : String) (status : String) (resultCourseId : Option String)
      (errorMessage : Option String)
deriving DecidableEq, Repr

def isJobUpdate (ev : DbEvent) : Bool :=
  match ev with
  | .updateJob _ _ _ _ => true
  | _ => false

def schemaMissingMsg : String :=
  "Database tables not found. Please run the migration SQL in Supabase. See COURSE_MIGRATION.md for instructions."

def userIdConstraintMsg : String :=
  "Database migration incomplete. The courses table still has user_id constraint. Please run migrate-courses-table.sql in Supabase."

def ownerIdConstraintMsg : String :=
  "owner_id is required but was not provided. This should not happen - please report this error."

/-- Model of `generateAICourse` (courseService.ts 64-192).  Returns
the `{ course, error }` pair (projected to the created course id and
the error message) together with the ordered list of external
effects.  The job row is inserted with `status: 'running'` before the
`generateCourse` call; the inner catch updates the job to `failed`
with the thrown error's message and rethrows; the outer catch turns
any thrown error into `{ course: null, error: error.message }`. -/
def runGenerateAICourse (env : CsEnv) : (Option String × Option String) × List DbEvent :=
  match env.userId with
  | none => ((none, some "User must be logged in"), [])
  | some uid =>
    match env.jobInsert with
    | some e =>
      let msg := if e.code = "42P01" || strContains e.message "does not exist" then
          schemaMissingMsg
        else e.message
      ((none, some msg), [.insertJob uid "running"])
    | none =>
      match env.genCourse with
      | .error m =>
        ((none, some m),
         [.insertJob uid "running", .llmCall, .updateJob env.jobId "failed" none (some m)])
      | .ok _ =>
        match env.courseInsert with
        | some e =>
          let msg := if e.code = "23502" && strContains e.message "user_id" then
              userIdConstraintMsg
            else if e.code = "23502" && strContains e.message "owner_id" then
              ownerIdConstraintMsg
            else e.message
          ((none, some msg),
           [.insertJob uid "running", .llmCall, .insertCourse,
            .updateJob env.jobId "failed" none (some msg)])
        | none =>
          match env.modulesInsert with
          | some e =>
            ((none, some e.message),
             [.insertJob uid "running", .llmCall, .insertCourse, .insertModules,
              .updateJob env.jobId "failed" none (some e.message)])
          | none =>
            ((some env.courseId, none),
             [.insertJob uid "running", .llmCall, .insertCourse, .insertModules,
              .updateJob env.jobId "done" (some env.courseId) none])

/-- Closed classifier of job-insert persistence errors, as the
rewrite is observable at the function boundary. -/
def classifyJobInsertError (e : PgError) : String :=
  if e.code = "42P01" || strContains e.message "does not exist" then schemaMissingMsg
  else e.message

/-- Closed classifier of course-insert persistence errors. -/
def classifyCourseInsertError (e : PgError) : String :=
  if e.code = "23502" && strContains e.message "user_id" then userIdConstraintMsg
  else if e.code = "23502" && strContains e.message "owner_id" then ownerIdConstraintMsg
  else e.message

end Edura

namespace Edura

/-! ### Helper lemmas -/

theorem exBind_ok {ε α β : Type _} {e : Except ε α} {f : α → Except ε β} {b : β}
    (h : (e >>= f) = .ok b) : ∃ a, e = .ok a ∧ f a = .ok b := by
  cases e with
  | error err => simp [Bind.bind, Except.bind] at h
  | ok a => exact ⟨a, rfl, by simpa [Bind.bind, Except.bind] using h⟩

theorem exPure_ok {ε α : Type _} {a b : α} (h : (pure a : Except ε α) = .ok b) : b = a :=
  (Except.ok.inj h).symm

theorem mapME_ok_mem {ε α β : Type _} {f : α → Except ε β} :
    ∀ {l : List α} {out : List β}, mapME f l = .ok out → ∀ b ∈ out, ∃ a ∈ l, f a = .ok b := by
  intro l
  induction l with
  | nil =>
    intro out h b hb
    simp only [mapME] at h
    cases h
    simp at hb
  | cons x rest ih =>
    intro out h b hb
    simp only [mapME] at h
    obtain ⟨bx, hbx, h⟩ := exBind_ok h
    obtain ⟨bs, hbs, h⟩ := exBind_ok h
    cases h
    rcases List.mem_cons.mp hb with hb | hb
    · exact ⟨x, List.mem_cons_self x rest, hb ▸ hbx⟩
    · obtain ⟨a, ha, hfa⟩ := ih hbs b hb
      exact ⟨a, List.mem_cons_of_mem x ha, hfa⟩

theorem mapME_ok_length {ε α β : Type _} {f : α → Except ε β} :
    ∀ {l : List α} {out : List β}, mapME f l = .ok out → out.length = l.length := by
  intro l
  induction l with
  | nil =>
    intro out h
    simp only [mapME] at h
    cases h
    rfl
  | cons x rest ih =>
    intro out h
    simp only [mapME] at h
    obtain ⟨bx, hbx, h⟩ := exBind_ok h
    obtain ⟨bs, hbs, h⟩ := exBind_ok h
    cases h
    simpa using ih hbs

theorem anyME_ok_true {α : Type _} {p : α → Except JsError Bool} :
    ∀ {l : List α}, anyME p l = .ok true → ∃ x ∈ l, p x = .ok true := by
  intro l
  induction l with
  | nil => intro h; simp [anyME] at h
  | cons x rest ih =>
    intro h
    simp only [anyME] at h
    obtain ⟨bx, hbx, h⟩ := exBind_ok h
    cases bx with
    | true => exact ⟨x, List.mem_cons_self x rest, hbx⟩
    | false =>
      obtain ⟨a, ha, hpa⟩ := ih h
      exact ⟨a, List.mem_cons_of_mem x ha, hpa⟩

theorem dropWhile_idem {α : Type _} (p : α → Bool) (l : List α) :
    (l.dropWhile p).dropWhile p = l.dropWhile p := by
  induction l with
  | nil => rfl
  | cons x rest ih =>
    by_cases hx : p x
    · simp [List.dropWhile_cons, hx, ih]
    · simp [List.dropWhile_cons, hx]

theorem trim_of_dropWhile_fixed (A : List Char) (hheadA : A.dropWhile isJsSpaceChar = A) :
    trimCharList ((A.reverse.dropWhile isJsSpaceChar).reverse) =
      (A.reverse.dropWhile isJsSpaceChar).reverse := by
  have htrev : ((A.reverse.dropWhile isJsSpaceChar).reverse).reverse =
      A.reverse.dropWhile isJsSpaceChar := List.reverse_reverse _
  generalize hT : (A.reverse.dropWhile isJsSpaceChar).reverse = t at htrev ⊢
  have hsuf : t.reverse <:+ A.reverse := by
    rw [htrev]; exact List.dropWhile_suffix _
  have hpref : t <+: A := List.reverse_suffix.mp hsuf
  have hdt : t.dropWhile isJsSpaceChar = t := by
    cases hc : t with
    | nil => rfl
    | cons c cs =>
      obtain ⟨r, hr⟩ := hpref
      rw [hc] at hr
      have hA2 : A = c :: (cs ++ r) := by rw [← hr]; simp
      have hcfalse : ¬ (isJsSpaceChar c = true) := by
        intro hcc
        rw [hA2, List.dropWhile_cons, if_pos hcc] at hheadA
        have hlen := congrArg List.length hheadA
        have hle : ((cs ++ r).dropWhile isJsSpaceChar).length ≤ (cs ++ r).length :=
          (List.dropWhile_sublist _).length_le
        simp [List.length_append] at hlen hle
        omega
      rw [List.dropWhile_cons, if_neg hcfalse]
  unfold trimCharList
  rw [hdt, htrev, dropWhile_idem]
  exact hT

theorem trimCharList_idem (l : List Char) :
    trimCharList (trimCharList l) = trimCharList l :=
  trim_of_dropWhile_fixed (l.dropWhile isJsSpaceChar) (dropWhile_idem _ _)

theorem jsTrim_idem (s : String) : jsTrim (jsTrim s) = jsTrim s := by
  unfold jsTrim
  exact congrArg String.mk (trimCharList_idem s.data)

end Edura

namespace Edura

/-! ### Structure of quizNormalize results -/

theorem quizNormalize_ok {items : List Json} {out : List QuizItem}
    (h : quizNormalize items = .ok out) :
    out ≠ [] ∧ out.length ≤ items.length ∧
      ∀ q ∈ out, quizKeep q = true ∧ ∃ a ∈ items, quizMapItem a = .ok q := by
  unfold quizNormalize at h
  obtain ⟨mapped, hm, h⟩ := exBind_ok h
  by_cases hz : (mapped.filter quizKeep).length = 0
  · simp only [hz, if_true, reduceIte] at h
    exact Except.noConfusion h
  · simp only [hz, if_false, reduceIte] at h
    have hout := exPure_ok h
    subst hout
    refine ⟨?_, ?_, ?_⟩
    · intro hnil
      rw [hnil] at hz
      simp at hz
    · calc (mapped.filter quizKeep).length ≤ mapped.length := List.length_filter_le _ _
        _ = items.length := mapME_ok_length hm
    · intro q hq
      have hsp := List.mem_filter.mp hq
      exact ⟨hsp.2, mapME_ok_mem hm q hsp.1⟩

theorem quizMapItem_options {item : Json} {q : QuizItem} (h : quizMapItem item = .ok q) :
    ∀ o ∈ q.options, o ≠ "" ∧ jsTrim o = o := by
  unfold quizMapItem at h
  obtain ⟨qraw, hqr, h⟩ := exBind_ok h
  obtain ⟨question, hq, h⟩ := exBind_ok h
  obtain ⟨optionsRaw, hor, h⟩ := exBind_ok h
  obtain ⟨options, hopt, h⟩ := exBind_ok h
  obtain ⟨caRaw, hcr, h⟩ := exBind_ok h
  obtain ⟨ca, hca, h⟩ := exBind_ok h
  obtain ⟨eraw, her, h⟩ := exBind_ok h
  obtain ⟨expl, hex, h⟩ := exBind_ok h
  have hq' := exPure_ok h
  subst hq'
  intro o ho
  simp only at ho
  unfold quizOptionsOf at hopt
  have hokind : (∃ l, optionsRaw = some (Json.arr l)) ∨ options = [] := by
    split at hopt
    · next l => exact Or.inl ⟨l, rfl⟩
    · exact Or.inr (exPure_ok hopt)
  rcases hokind with ⟨l, hl⟩ | hl
  · subst hl
    simp only at hopt
    obtain ⟨mappedOpts, hmo, hopt⟩ := exBind_ok hopt
    have hfo := exPure_ok hopt
    subst hfo
    have hsp := List.mem_filter.mp ho
    have hne : o ≠ "" := by simpa using hsp.2
    obtain ⟨src, hsrc, hentry⟩ := mapME_ok_mem hmo o hsp.1
    refine ⟨hne, ?_⟩
    cases src with
    | null => exact absurd (Except.ok.inj hentry).symm hne
    | str s =>
      have : o = jsTrim s := (Except.ok.inj hentry).symm
      rw [this, jsTrim_idem]
    | bool b => exact absurd hentry (by simp [quizOptionEntry])
    | num n => exact absurd hentry (by simp [quizOptionEntry])
    | arr es => exact absurd hentry (by simp [quizOptionEntry])
    | obj fs => exact absurd hentry (by simp [quizOptionEntry])
  · rw [hl] at ho
    simp at ho

end Edura

namespace Edura

/-! ### Claim C1 -/

/-- Range property asserted by claim C1 for a surviving quiz item: an
integer `correctAnswer` with `0 ≤ correctAnswer < options.length`. -/
def quizAnswerInRange (q : QuizItem) : Bool :=
  match q.correctAnswer with
  | .val v => decide (v.den = 1) && decide (0 ≤ v) && decide (v < (q.options.length : ℚ))
  | _ => false

/-- Quiz item whose `correctAnswer` is the integer `5` although it has
only two options. -/
def c1Item : Json :=
  .obj [("question", .str "Which planet is red?"),
        ("options", .arr [.str "Mars", .str "Venus"]),
        ("correctAnswer", .num (.val 5)),
        ("explanation", .str "It is Mars.")]

def c1Survivor : QuizItem :=
  ⟨"Which planet is red?", ["Mars", "Venus"], .val 5, "It is Mars."⟩

/-- C1, counterexample: `generateQuiz`'s filter checks only
`Number.isInteger(correctAnswer)` and never compares it with
`options.length`, so an item with two options and `correctAnswer = 5`
survives normalization with its out-of-range index intact — the claim
that every surviving item satisfies
`0 ≤ correctAnswer < options.length` is false. -/
theorem c1_out_of_range_survivor :
    quizNormalize [c1Item] = .ok [c1Survivor] ∧ quizAnswerInRange c1Survivor = false :=
  ⟨rfl, rfl⟩

/-- C1 (amended): every item surviving `generateQuiz`'s
normalization has a non-empty question, at least two options and an
integer `correctAnswer`; failing items are dropped, never defaulted
(survivors never outnumber the raw items).  The in-range requirement
`correctAnswer < options.length` of the original claim is not
enforced. -/
theorem c1_quiz_survivor_invariant (items : List Json) (out : List QuizItem)
    (h : quizNormalize items = .ok out) :
    (∀ q ∈ out, 2 ≤ q.options.length ∧ numIsInteger q.correctAnswer = true ∧ q.question ≠ "") ∧
      out.length ≤ items.length := by
  obtain ⟨-, hlen, hmem⟩ := quizNormalize_ok h
  refine ⟨fun q hq => ?_, hlen⟩
  obtain ⟨hkeep, -⟩ := hmem q hq
  unfold quizKeep at hkeep
  simp only [Bool.and_eq_true, decide_eq_true_eq] at hkeep
  exact ⟨hkeep.1.2, hkeep.2, hkeep.1.1⟩

/-- C1, witness: the amended theorem applied to the singleton input
`[c1Item]`. -/
theorem c1_quiz_survivor_invariant_witness :
    (∀ q ∈ [c1Survivor], 2 ≤ q.options.length ∧ numIsInteger q.correctAnswer = true ∧ q.question ≠ "") ∧
      ([c1Survivor] : List QuizItem).length ≤ ([c1Item] : List Json).length :=
  c1_quiz_survivor_invariant [c1Item] [c1Survivor] rfl

/-! ### Claim C10 -/

/-- Quiz item whose options array contains the number `1` between two
strings. -/
def c10Item : Json :=
  .obj [("question", .str "Pick one"),
        ("options", .arr [.str " A ", .num (.val 1), .str "B"]),
        ("correctAnswer", .num (.val 0)),
        ("explanation", .str "E")]

/-- C10, counterexample: a non-string, non-nullish option is not
removed from the options array — calling `option?.trim()` on the
number `1` throws a `TypeError` that aborts the whole normalization,
so the item does not survive with the numeric option dropped as the
claim states. -/
theorem c10_nonstring_option_throws :
    quizNormalize [c10Item] = .error .typeError ∧
      quizNormalize [c10Item] ≠ .ok [⟨"Pick one", ["A", "B"], .val 0, "E"⟩] :=
  ⟨rfl, by decide⟩

/-- C10 (amended): every option of every surviving quiz item is a
non-empty, whitespace-trimmed string — nullish options become the
empty string and empty-after-trim options are removed by
`.filter(Boolean)` before the minimum-length check, so the surviving
option count can be smaller than the returned count — but a
non-string non-nullish option throws a `TypeError` that fails the
whole generation instead of being removed. -/
theorem c10_survivor_options_trimmed (items : List Json) (out : List QuizItem)
    (h : quizNormalize items = .ok out) :
    ∀ q ∈ out, ∀ o ∈ q.options, o ≠ "" ∧ jsTrim o = o := by
  obtain ⟨-, -, hmem⟩ := quizNormalize_ok h
  intro q hq
  obtain ⟨-, a, ha, hmap⟩ := hmem q hq
  exact quizMapItem_options hmap

/-- C10, witness: the amended theorem applied to a singleton input
whose options need trimming and dropping, instantiated at the
surviving option "A". -/
theorem c10_survivor_options_trimmed_witness :
    "A" ≠ "" ∧ jsTrim "A" = "A" :=
  c10_survivor_options_trimmed
    [.obj [("question", .str "Pick one"),
           ("options", .arr [.str " A ", .str "  ", .str "B"]),
           ("correctAnswer", .num (.val 0)),
           ("explanation", .str "E")]]
    [⟨"Pick one", ["A", "B"], .val 0, "E"⟩] rfl
    ⟨"Pick one", ["A", "B"], .val 0, "E"⟩ (by simp)
    "A" (by simp)

end Edura

namespace Edura

/-! ### Structure of the remaining normalizers -/

theorem flashNormalize_ok {cards : List Json} {out : List FlashcardItem}
    (h : flashNormalize cards = .ok out) : out ≠ [] := by
  unfold flashNormalize at h
  obtain ⟨mapped, hm, h⟩ := exBind_ok h
  by_cases hz : (mapped.filter flashKeep).length = 0
  · simp only [hz, reduceIte] at h
    exact Except.noConfusion h
  · simp only [hz, reduceIte] at h
    have hout := exPure_ok h
    subst hout
    intro hnil
    rw [hnil] at hz
    simp at hz

theorem roadmapNormalize_ok_ne_nil {payload : Json} {out : List MilestoneOut}
    (h : roadmapNormalize payload = .ok out) : out ≠ [] := by
  unfold roadmapNormalize at h
  split at h
  · next l =>
    by_cases hz : l.length = 0
    · simp only [hz, reduceIte] at h
      exact Except.noConfusion h
    · simp only [hz, reduceIte] at h
      have hlen := mapME_ok_length h
      intro hnil
      rw [hnil] at hlen
      simp [List.enum_length] at hlen
      omega
  · exact Except.noConfusion h

theorem roadmapNormalize_ok_mem {payload : Json} {out : List MilestoneOut}
    (h : roadmapNormalize payload = .ok out) :
    ∀ m ∈ out, ∃ i j, roadmapMapMilestone i j = .ok m := by
  unfold roadmapNormalize at h
  split at h
  · next l =>
    by_cases hz : l.length = 0
    · simp only [hz, reduceIte] at h
      exact Except.noConfusion h
    · simp only [hz, reduceIte] at h
      intro m hm
      obtain ⟨p, hp, hmap⟩ := mapME_ok_mem h m hm
      exact ⟨p.1, p.2, hmap⟩
  · exact Except.noConfusion h

theorem roadmapMapMilestone_completed {i : Nat} {j : Json} {m : MilestoneOut}
    (h : roadmapMapMilestone i j = .ok m) : m.completed = false := by
  unfold roadmapMapMilestone at h
  repeat obtain ⟨_, -, h⟩ := exBind_ok h
  have hm := exPure_ok h
  subst hm
  rfl

theorem detailedStages_ok_mem {roadmap : Json} {out : List StageOut}
    (h : detailedStagesNormalize roadmap = .ok out) :
    ∀ s ∈ out, ∃ i j, detailedMapStage i j = .ok s := by
  unfold detailedStagesNormalize at h
  split at h
  · split at h
    · cases h
      intro s hs
      simp at hs
    · next j =>
      split at h
      · split at h
        · next l =>
          intro s hs
          obtain ⟨p, hp, hmap⟩ := mapME_ok_mem h s hs
          exact ⟨p.1, p.2, hmap⟩
        · exact Except.noConfusion h
      · cases h
        intro s hs
        simp at hs
  · cases h
    intro s hs
    simp at hs
  · exact Except.noConfusion h

theorem detailedMapStage_completed {i : Nat} {j : Json} {s : StageOut}
    (h : detailedMapStage i j = .ok s) : s.completed = false := by
  unfold detailedMapStage at h
  repeat obtain ⟨_, -, h⟩ := exBind_ok h
  have hs := exPure_ok h
  subst hs
  rfl

end Edura

namespace Edura

/-- Resource whose normalized `type` is the string `video` (up to
case). -/
def isVideoType (r : ResourceOut) : Bool :=
  match r.type with
  | .str s => jsToLower s = "video"
  | _ => false

/-- Resource whose normalized `type` is an article/doc string (up to
case). -/
def isArticleType (r : ResourceOut) : Bool :=
  match r.type with
  | .str s => ["article", "doc", "documentation"].contains (jsToLower s)
  | _ => false

theorem resIsVideo_ok_true {r : ResourceOut} (h : resIsVideo r = .ok true) :
    isVideoType r = true := by
  unfold resIsVideo resTypeLower at h
  unfold isVideoType
  cases htype : r.type <;> rw [htype] at h <;> simp [Except.map] at h
  · next s =>
    simpa using h

theorem resIsArticle_ok_true {r : ResourceOut} (h : resIsArticle r = .ok true) :
    isArticleType r = true := by
  unfold resIsArticle resTypeLower at h
  unfold isArticleType
  cases htype : r.type <;> rw [htype] at h <;> simp [Except.map] at h
  · next s =>
    simpa using h

theorem isVideoType_filler (t : Option Json) : isVideoType (videoFillerRes t) = true := rfl

theorem isArticleType_filler (t : Option Json) : isArticleType (articleFillerRes t) = true := rfl

theorem moduleCoverage_ok {m m' : ModuleOut} (h : moduleCoverage m = .ok m') :
    m'.quizQuestions = m.quizQuestions ∧ m'.title = m.title ∧
      (∃ r ∈ m'.resources, isVideoType r = true) ∧
      (∃ r ∈ m'.resources, isArticleType r = true) := by
  unfold moduleCoverage at h
  obtain ⟨hv, hhv, h⟩ := exBind_ok h
  obtain ⟨ha, hha, h⟩ := exBind_ok h
  have hm := exPure_ok h
  have hq : m'.quizQuestions = m.quizQuestions := by rw [hm]
  have ht : m'.title = m.title := by rw [hm]
  have hres : m'.resources =
      (if hv = true then m.resources else m.resources ++ [videoFillerRes m.title]) ++
        (if ha = true then [] else [articleFillerRes m.title]) := by
    rw [hm]
    cases hv <;> cases ha <;> simp
  refine ⟨hq, ht, ?_, ?_⟩
  · cases hv with
    | true =>
      obtain ⟨r, hr, hchk⟩ := anyME_ok_true hhv
      exact ⟨r, by rw [hres]; cases ha <;> simp [hr], resIsVideo_ok_true hchk⟩
    | false =>
      exact ⟨videoFillerRes m.title, by rw [hres]; cases ha <;> simp, isVideoType_filler m.title⟩
  · cases ha with
    | true =>
      obtain ⟨r, hr, hchk⟩ := anyME_ok_true hha
      exact ⟨r, by rw [hres]; cases hv <;> simp [hr], resIsArticle_ok_true hchk⟩
    | false =>
      exact ⟨articleFillerRes m.title, by rw [hres]; cases hv <;> simp, isArticleType_filler m.title⟩

theorem outlineMapModule_quiz_ne_nil {input : CourseInput} {i : Nat} {j : Json}
    {mo : ModuleOut} (h : outlineMapModule input i j = .ok mo) :
    mo.quizQuestions ≠ [] := by
  unfold outlineMapModule at h
  obtain ⟨titleF, -, h⟩ := exBind_ok h
  obtain ⟨qf, -, h⟩ := exBind_ok h
  obtain ⟨quizRaw, -, h⟩ := exBind_ok h
  obtain ⟨survivors, -, h⟩ := exBind_ok h
  repeat obtain ⟨_, -, h⟩ := exBind_ok h
  have hmo := exPure_ok h
  subst hmo
  show (if survivors.length = 0 then [placeholderQuiz titleF i] else survivors) ≠ []
  split
  · simp
  · next hz =>
    intro hnil
    rw [hnil] at hz
    simp at hz

theorem outlineNormalize_ok {input : CourseInput} {outline : Json} {out : OutlineOut}
    (h : outlineNormalize input outline = .ok out) :
    out.modules ≠ [] ∧
      ∀ md ∈ out.modules, ∃ i j m', outlineMapModule input i j = .ok m' ∧
        moduleCoverage m' = .ok md := by
  unfold outlineNormalize at h
  obtain ⟨mf, -, h⟩ := exBind_ok h
  obtain ⟨rawModules, -, h⟩ := exBind_ok h
  obtain ⟨mapped, hmapped, h⟩ := exBind_ok h
  obtain ⟨modules, hcov, h⟩ := exBind_ok h
  by_cases hz : modules.length = 0
  · simp only [hz, reduceIte] at h
    exact Except.noConfusion h
  · simp only [hz, reduceIte] at h
    repeat obtain ⟨_, -, h⟩ := exBind_ok h
    have hout := exPure_ok h
    subst hout
    constructor
    · show modules ≠ []
      intro hnil
      rw [hnil] at hz
      simp at hz
    · intro md hmd
      obtain ⟨m', hm', hcv⟩ := mapME_ok_mem hcov md hmd
      obtain ⟨p, hp, hmap⟩ := mapME_ok_mem hmapped m' hm'
      exact ⟨p.1, p.2, m', hmap, hcv⟩

end Edura

namespace Edura

instance : Inhabited Json := ⟨.null⟩

instance : Inhabited JsNum := ⟨.nan⟩

instance : Inhabited Difficulty := ⟨.medium⟩

instance : Inhabited ModuleOut :=
  ⟨⟨.null, .null, none, .null, .null, "", .null, .null, .null, [], [], [], [], 0, none⟩⟩

instance : Inhabited OutlineOut :=
  ⟨⟨"", "", .null, .null, .null, .null, 0, .null, .null, []⟩⟩

/-! ### Claim C3 -/

def c3Input : CourseInput :=
  ⟨"history of rome", "learn roman history", "students", "beginner", 4, "English",
   "antiquity", false, none, none⟩

/-- Raw model output with two modules that supply nothing at all. -/
def c3Outline : Json := .obj [("modules", .arr [.obj [], .obj []])]

def c3Out : OutlineOut :=
  match outlineNormalize c3Input c3Outline with
  | .ok o => o
  | .error _ => default

/-- C3, counterexample: two modules whose titles are equally absent
receive different synthesized placeholder quiz questions, because the
placeholder interpolates the 1-based module position when the title
is falsy — so the synthesized fillers are not deterministic functions
of the module title alone. -/
theorem c3_filler_depends_on_index :
    outlineNormalize c3Input c3Outline = .ok c3Out ∧
      ((c3Out.modules.get? 0).map ModuleOut.title = some none ∧
       (c3Out.modules.get? 1).map ModuleOut.title = some none) ∧
      (c3Out.modules.get? 0).map ModuleOut.quizQuestions ≠
        (c3Out.modules.get? 1).map ModuleOut.quizQuestions := by
  refine ⟨rfl, ⟨rfl, rfl⟩, ?_⟩
  decide

/-- C3 (amended): every module of a successfully returned course
outline has at least one `video`-typed resource, at least one
article/doc-typed resource and at least one quiz question, even when
the raw model output supplied none; the synthesized resources are
functions of the module's raw title alone, and the synthesized
placeholder quiz question is a function of the title whenever the
title is truthy, falling back to the 1-based module position when it
is not. -/
theorem c3_module_coverage (input : CourseInput) (outline : Json) (out : OutlineOut)
    (h : outlineNormalize input outline = .ok out) :
    (∀ md ∈ out.modules,
      (∃ r ∈ md.resources, isVideoType r = true) ∧
      (∃ r ∈ md.resources, isArticleType r = true) ∧
      md.quizQuestions ≠ []) ∧
    (∀ t i j, optTruthy t = true → placeholderQuiz t i = placeholderQuiz t j) := by
  obtain ⟨hne, hprov⟩ := outlineNormalize_ok h
  constructor
  · intro md hmd
    obtain ⟨i, j, m', hmap, hcov⟩ := hprov md hmd
    obtain ⟨hq, ht, hvid, hart⟩ := moduleCoverage_ok hcov
    refine ⟨hvid, hart, ?_⟩
    rw [hq]
    exact outlineMapModule_quiz_ne_nil hmap
  · intro t i j htruthy
    unfold placeholderQuiz titleOrModuleN
    cases t with
    | none => simp [optTruthy] at htruthy
    | some jx =>
      simp only [optTruthy] at htruthy
      simp [htruthy]

/-- C3, witness: the amended theorem applied to the two-empty-module
outline. -/
theorem c3_module_coverage_witness :
    (∀ md ∈ c3Out.modules,
      (∃ r ∈ md.resources, isVideoType r = true) ∧
      (∃ r ∈ md.resources, isArticleType r = true) ∧
      md.quizQuestions ≠ []) ∧
    (∀ t i j, optTruthy t = true → placeholderQuiz t i = placeholderQuiz t j) :=
  c3_module_coverage c3Input c3Outline c3Out rfl

/-! ### Claim C4 -/

/-- C4: for each array-producing generation pipeline — flashcards,
quiz, roadmap milestones, course-outline modules — an empty surviving
collection raises an error instead of being returned, so every
successfully returned collection is non-empty. -/
theorem c4_nonempty_results :
    (∀ text out, flashFromText text = .ok out → out ≠ []) ∧
    (∀ text out, quizFromText text = .ok out → out ≠ []) ∧
    (∀ text out, roadmapFromText text = .ok out → out ≠ []) ∧
    (∀ input text out, outlineFromText input text = .ok out → out.modules ≠ []) := by
  refine ⟨?_, ?_, ?_, ?_⟩
  · intro text out h
    unfold flashFromText at h
    obtain ⟨payload, -, h⟩ := exBind_ok h
    obtain ⟨cards, -, h⟩ := exBind_ok h
    exact flashNormalize_ok h
  · intro text out h
    unfold quizFromText at h
    obtain ⟨payload, -, h⟩ := exBind_ok h
    obtain ⟨items, -, h⟩ := exBind_ok h
    exact (quizNormalize_ok h).1
  · intro text out h
    unfold roadmapFromText at h
    obtain ⟨payload, -, h⟩ := exBind_ok h
    exact roadmapNormalize_ok_ne_nil h
  · intro input text out h
    unfold outlineFromText at h
    obtain ⟨payload, -, h⟩ := exBind_ok h
    exact (outlineNormalize_ok h).1

def c4FlashText : String :=
  "```json\n[\x7b\"question\":\"What does photosynthesis convert?\",\"answer\":\"Light into chemical energy\"\x7d]\n```"

def c4QuizText : String :=
  "[\x7b\"question\":\"Q1\",\"options\":[\"A\",\"B\"],\"correct_answer\":\"2\"\x7d]"

def c4RoadmapText : String :=
  "[\x7b\"id\":1,\"title\":\"Start\"\x7d]"

def c4OutlineText : String :=
  "\x7b\"modules\":[\x7b\x7d]\x7d"

def c4FlashOut : List FlashcardItem :=
  match flashFromText c4FlashText with
  | .ok o => o
  | .error _ => []

def c4QuizOut : List QuizItem :=
  match quizFromText c4QuizText with
  | .ok o => o
  | .error _ => []

def c4RoadmapOut : List MilestoneOut :=
  match roadmapFromText c4RoadmapText with
  | .ok o => o
  | .error _ => []

def c4OutlineOut : OutlineOut :=
  match outlineFromText c3Input c4OutlineText with
  | .ok o => o
  | .error _ => default

/-- C4, witness: the four pipeline conclusions applied to concrete
successful inputs. -/
theorem c4_nonempty_results_witness :
    c4FlashOut ≠ [] ∧ c4QuizOut ≠ [] ∧ c4RoadmapOut ≠ [] ∧ c4OutlineOut.modules ≠ [] :=
  ⟨c4_nonempty_results.1 c4FlashText c4FlashOut rfl,
   c4_nonempty_results.2.1 c4QuizText c4QuizOut rfl,
   c4_nonempty_results.2.2.1 c4RoadmapText c4RoadmapOut rfl,
   c4_nonempty_results.2.2.2 c3Input c4OutlineText c4OutlineOut rfl⟩

/-! ### Claim C7 -/

/-- C7: every milestone produced by `generateRoadmap`'s
normalization and every stage produced by `generateDetailedRoadmap`'s
normalization has `completed = false`, regardless of the value the
model returned for that field. -/
theorem c7_completed_forced_false :
    (∀ payload out, roadmapNormalize payload = .ok out → ∀ m ∈ out, m.completed = false) ∧
    (∀ roadmap out, detailedStagesNormalize roadmap = .ok out → ∀ s ∈ out, s.completed = false) := by
  constructor
  · intro payload out h m hm
    obtain ⟨i, j, hmap⟩ := roadmapNormalize_ok_mem h m hm
    exact roadmapMapMilestone_completed hmap
  · intro roadmap out h s hs
    obtain ⟨i, j, hmap⟩ := detailedStages_ok_mem h s hs
    exact detailedMapStage_completed hmap

/-- Milestone payload that claims to be already completed. -/
def c7Milestones : Json :=
  .arr [.obj [("completed", .bool true), ("difficulty", .str "HARD")]]

/-- Detailed-roadmap payload whose stage claims to be already
completed. -/
def c7Roadmap : Json :=
  .obj [("stages", .arr [.obj [("completed", .bool true)]])]

def c7MilestonesOut : List MilestoneOut :=
  match roadmapNormalize c7Milestones with
  | .ok o => o
  | .error _ => []

def c7StagesOut : List StageOut :=
  match detailedStagesNormalize c7Roadmap with
  | .ok o => o
  | .error _ => []

/-- C7, witness: both conclusions applied to payloads that set
`completed: true`. -/
theorem c7_completed_forced_false_witness :
    (∀ m ∈ c7MilestonesOut, m.completed = false) ∧
      (∀ s ∈ c7StagesOut, s.completed = false) :=
  ⟨c7_completed_forced_false.1 c7Milestones c7MilestonesOut rfl,
   c7_completed_forced_false.2 c7Roadmap c7StagesOut rfl⟩

end Edura

namespace Edura

/-! ### Claim C8 -/


theorem replaceFenceF_irrel : ∀ {f1 f2 : Nat} {l : List Char}, l.length ≤ f1 → l.length ≤ f2 →
    replaceFenceF f1 l = replaceFenceF f2 l := by
  intro f1
  induction f1 with
  | zero =>
    intro f2 l h1 h2
    have : l = [] := List.length_eq_zero.mp (Nat.le_zero.mp h1)
    subst this
    cases f2 <;> rfl
  | succ f ih =>
    intro f2 l h1 h2
    cases l with
    | nil => cases f2 <;> rfl
    | cons c rest =>
      cases f2 with
      | zero => simp at h2
      | succ f2' =>
        simp only [replaceFenceF]
        simp only [List.length_cons, Nat.succ_le_succ_iff] at h1 h2
        split
        · have hd : (rest.drop 6).length ≤ rest.length := by
            simp [List.length_drop]
          exact congrArg (fun t => '`' :: '`' :: '`' :: t) (ih (le_trans hd h1) (le_trans hd h2))
        · exact congrArg (c :: ·) (ih h1 h2)

theorem replaceFence_cons (c : Char) (rest : List Char) :
    replaceFence (c :: rest) =
      if startsWithFence (c :: rest) then '`' :: '`' :: '`' :: replaceFence (rest.drop 6)
      else c :: replaceFence rest := by
  unfold replaceFence
  simp only [List.length_cons, replaceFenceF]
  split
  · refine congrArg (fun t => '`' :: '`' :: '`' :: t) (replaceFenceF_irrel ?_ le_rfl)
    simp [List.length_drop]
  · rfl

theorem removeTicksF_irrel : ∀ {f1 f2 : Nat} {l : List Char}, l.length ≤ f1 → l.length ≤ f2 →
    removeTicksF f1 l = removeTicksF f2 l := by
  intro f1
  induction f1 with
  | zero =>
    intro f2 l h1 h2
    have : l = [] := List.length_eq_zero.mp (Nat.le_zero.mp h1)
    subst this
    cases f2 <;> rfl
  | succ f ih =>
    intro f2 l h1 h2
    cases l with
    | nil => cases f2 <;> rfl
    | cons c rest =>
      cases f2 with
      | zero => simp at h2
      | succ f2' =>
        simp only [removeTicksF]
        simp only [List.length_cons, Nat.succ_le_succ_iff] at h1 h2
        split
        · have hd : (rest.drop 2).length ≤ rest.length := by
            simp [List.length_drop]
          exact ih (le_trans hd h1) (le_trans hd h2)
        · exact congrArg (c :: ·) (ih h1 h2)

theorem removeTicks_cons (c : Char) (rest : List Char) :
    removeTicks (c :: rest) =
      if startsWithTicks (c :: rest) then removeTicks (rest.drop 2)
      else c :: removeTicks rest := by
  unfold removeTicks
  simp only [List.length_cons, removeTicksF]
  split
  · refine removeTicksF_irrel ?_ le_rfl
    simp [List.length_drop]
  · rfl

theorem startsWithFence_append_nl (xs ys : List Char) :
    startsWithFence (xs ++ '\n' :: ys) = startsWithFence xs := by
  rcases xs with _ | ⟨a, _ | ⟨b, _ | ⟨c, _ | ⟨d, _ | ⟨e, _ | ⟨f, _ | ⟨g, rest⟩⟩⟩⟩⟩⟩⟩
  all_goals simp +decide [startsWithFence, ciCharAt]

theorem startsWithTicks_append_nl (xs ys : List Char) :
    startsWithTicks (xs ++ '\n' :: ys) = startsWithTicks xs := by
  rcases xs with _ | ⟨a, _ | ⟨b, _ | ⟨c, rest⟩⟩⟩
  all_goals simp +decide [startsWithTicks, charAt]

theorem startsWithFence_length {l : List Char} (h : startsWithFence l = true) : 7 ≤ l.length := by
  unfold startsWithFence at h
  simp only [Bool.and_eq_true] at h
  have h6 := h.2
  unfold ciCharAt at h6
  split at h6
  · next c heq => exact (List.get?_eq_some.mp heq).1
  · exact absurd h6 (by simp)

theorem startsWithTicks_length {l : List Char} (h : startsWithTicks l = true) : 3 ≤ l.length := by
  unfold startsWithTicks at h
  simp only [Bool.and_eq_true] at h
  have h2 := h.2
  unfold charAt at h2
  split at h2
  · next c heq => exact (List.get?_eq_some.mp heq).1
  · exact absurd h2 (by simp)

theorem replaceFence_append_nl (xs ys : List Char) :
    replaceFence (xs ++ '\n' :: ys) = replaceFence xs ++ replaceFence ('\n' :: ys) := by
  have main : ∀ (n : Nat) (xs ys : List Char), xs.length ≤ n →
      replaceFence (xs ++ '\n' :: ys) = replaceFence xs ++ replaceFence ('\n' :: ys) := by
    intro n
    induction n with
    | zero =>
      intro xs ys h
      have : xs = [] := List.length_eq_zero.mp (Nat.le_zero.mp h)
      subst this
      simp [replaceFence, replaceFenceF]
    | succ n ih =>
      intro xs ys h
      cases xs with
      | nil => simp [replaceFence, replaceFenceF]
      | cons c rest =>
        rw [List.cons_append, replaceFence_cons, replaceFence_cons c rest,
          show c :: (rest ++ '\n' :: ys) = (c :: rest) ++ '\n' :: ys from rfl,
          startsWithFence_append_nl (c :: rest) ys]
        simp only [List.length_cons, Nat.succ_le_succ_iff] at h
        by_cases hsw : startsWithFence (c :: rest)
        · rw [if_pos hsw, if_pos hsw]
          have hlen : 7 ≤ (c :: rest).length := startsWithFence_length hsw
          have hrest : 6 ≤ rest.length := by simpa using hlen
          rw [List.drop_append_of_le_length hrest]
          have hd : (rest.drop 6).length ≤ n := by
            simp only [List.length_drop]
            omega
          rw [ih (rest.drop 6) ys hd]
          simp
        · rw [if_neg hsw, if_neg hsw]
          rw [ih rest ys h]
          simp
  exact main xs.length xs ys le_rfl

theorem removeTicks_append_nl (xs ys : List Char) :
    removeTicks (xs ++ '\n' :: ys) = removeTicks xs ++ removeTicks ('\n' :: ys) := by
  have main : ∀ (n : Nat) (xs ys : List Char), xs.length ≤ n →
      removeTicks (xs ++ '\n' :: ys) = removeTicks xs ++ removeTicks ('\n' :: ys) := by
    intro n
    induction n with
    | zero =>
      intro xs ys h
      have : xs = [] := List.length_eq_zero.mp (Nat.le_zero.mp h)
      subst this
      simp [removeTicks, removeTicksF]
    | succ n ih =>
      intro xs ys h
      cases xs with
      | nil => simp [removeTicks, removeTicksF]
      | cons c rest =>
        rw [List.cons_append, removeTicks_cons, removeTicks_cons c rest,
          show c :: (rest ++ '\n' :: ys) = (c :: rest) ++ '\n' :: ys from rfl,
          startsWithTicks_append_nl (c :: rest) ys]
        simp only [List.length_cons, Nat.succ_le_succ_iff] at h
        by_cases hsw : startsWithTicks (c :: rest)
        · rw [if_pos hsw, if_pos hsw]
          have hlen : 3 ≤ (c :: rest).length := startsWithTicks_length hsw
          have hrest : 2 ≤ rest.length := by simpa using hlen
          rw [List.drop_append_of_le_length hrest]
          have hd : (rest.drop 2).length ≤ n := by
            simp only [List.length_drop]
            omega
          exact ih (rest.drop 2) ys hd
        · rw [if_neg hsw, if_neg hsw]
          rw [ih rest ys h]
          simp
  exact main xs.length xs ys le_rfl

theorem trimCharList_cons_ws {w : Char} (hw : isJsSpaceChar w = true) (l : List Char) :
    trimCharList (w :: l) = trimCharList l := by
  simp [trimCharList, List.dropWhile_cons, hw]

theorem trimCharList_append_ws {w : Char} (hw : isJsSpaceChar w = true) (l : List Char) :
    trimCharList (l ++ [w]) = trimCharList l := by
  unfold trimCharList
  rw [List.dropWhile_append]
  by_cases hd : (l.dropWhile isJsSpaceChar).isEmpty
  · rw [if_pos hd]
    have hl : l.dropWhile isJsSpaceChar = [] := by
      simpa [List.isEmpty_iff] using hd
    rw [hl]
    simp [List.dropWhile_cons, hw, List.dropWhile_nil]
  · rw [if_neg hd]
    simp [List.reverse_append, List.dropWhile_cons, hw]

/-- Response text wrapped in a markdown fence tagged `json`. -/
def fenceWrap (t : String) : String := "```json\n" ++ t ++ "\n```"

theorem clean_fenceWrap (t : String) :
    cleanResponseText (fenceWrap t) = cleanResponseText t := by
  unfold cleanResponseText fenceWrap
  refine congrArg String.mk ?_
  have hdata : ("```json\n" ++ t ++ "\n```" : String).data =
      '`' :: '`' :: '`' :: 'j' :: 's' :: 'o' :: 'n' :: '\n' :: (t.data ++ '\n' :: ['`', '`', '`']) := by
    rw [String.data_append, String.data_append]
    rfl
  rw [hdata]
  rw [replaceFence_cons]
  rw [if_pos (show startsWithFence ('`' :: '`' :: '`' :: 'j' :: 's' :: 'o' :: 'n' :: '\n' :: (t.data ++ '\n' :: ['`', '`', '`'])) = true from rfl)]
  show trimCharList (removeTicks ('`' :: '`' :: '`' :: replaceFence ('\n' :: (t.data ++ '\n' :: ['`', '`', '`'])))) = _
  rw [replaceFence_cons]
  rw [if_neg (show ¬ startsWithFence ('\n' :: (t.data ++ '\n' :: ['`', '`', '`'])) = true from by simp +decide [startsWithFence, ciCharAt])]
  rw [replaceFence_append_nl]
  rw [show replaceFence ('\n' :: ['`', '`', '`']) = '\n' :: ['`', '`', '`'] from rfl]
  rw [removeTicks_cons]
  rw [if_pos (show startsWithTicks ('`' :: '`' :: '`' :: '\n' :: (replaceFence t.data ++ '\n' :: ['`', '`', '`'])) = true from rfl)]
  show trimCharList (removeTicks ('\n' :: (replaceFence t.data ++ '\n' :: ['`', '`', '`']))) = _
  rw [removeTicks_cons]
  rw [if_neg (show ¬ startsWithTicks ('\n' :: (replaceFence t.data ++ '\n' :: ['`', '`', '`'])) = true from by simp +decide [startsWithTicks, charAt])]
  rw [removeTicks_append_nl]
  rw [show removeTicks ('\n' :: ['`', '`', '`']) = ['\n'] from rfl]
  rw [trimCharList_cons_ws (by decide)]
  rw [show removeTicks (replaceFence t.data) ++ ['\n'] = removeTicks (replaceFence t.data) ++ ['\n'] from rfl]
  exact trimCharList_append_ws (by decide) _

theorem fenceWrap_ne_empty (t : String) : fenceWrap t ≠ "" := by
  intro h
  have hd := congrArg String.data h
  rw [show (fenceWrap t).data = ("```json\n" ++ t ++ "\n```" : String).data from rfl,
    String.data_append, String.data_append] at hd
  simp at hd

/-- C8: extracting a payload from a response wrapped in a
```json fenced block and from the already-unfenced response yields
the same parsed payload — fence stripping makes `parseJsonResponse`
insensitive to the fencing. -/
theorem c8_fence_strip_idempotent (t : String) :
    (parseJsonResponse (fenceWrap t)).toOption = (parseJsonResponse t).toOption := by
  by_cases ht : t = ""
  · subst ht
    decide
  · have hcl := clean_fenceWrap t
    unfold parseJsonResponse
    rw [if_neg (fenceWrap_ne_empty t), if_neg ht, hcl]

end Edura

namespace Edura

/-! ### Claim C5 -/

/-- Scan for the matching closer of an already-consumed opener,
tracking the nesting depth of that delimiter pair, and return the
characters up to and including the matching closer. -/
def scanBal (o c : Char) : Nat → List Char → Option (List Char)
  | _, [] => none
  | depth, x :: rest =>
    if x = o then (scanBal o c (depth + 1) rest).map (x :: ·)
    else if x = c then
      if depth = 1 then some [x]
      else (scanBal o c (depth - 1) rest).map (x :: ·)
    else (scanBal o c depth rest).map (x :: ·)

/-- Modelled from the claim's words, for comparison with the code's
`regexSpan`: the first balanced `{...}` or `[...]` substring of the
text. -/
def firstBalancedSpan : List Char → Option (List Char)
  | [] => none
  | c :: rest =>
    if c = '{' then
      match scanBal '{' '}' 1 rest with
      | some span => some ('{' :: span)
      | none => firstBalancedSpan rest
    else if c = '[' then
      match scanBal '[' ']' 1 rest with
      | some span => some ('[' :: span)
      | none => firstBalancedSpan rest
    else firstBalancedSpan rest

/-- Extractor as the claim states it: direct parse, then parse of the
first *balanced* substring. -/
def specBalancedExtract (text : String) : Except JsError Json :=
  if text = "" then .error (.thrown "Empty response from Gemini.")
  else
    match jsonParse (cleanResponseText text) with
    | .ok v => .ok v
    | .error _ =>
      match firstBalancedSpan (cleanResponseText text).data with
      | none => .error (.thrown "Failed to parse JSON from Gemini response.")
      | some sub =>
        match jsonParse ⟨sub⟩ with
        | .ok v => .ok v
        | .error _ => .error .jsonSyntaxError

/-- Second stage of the extractor viewed as a partial function: the
greedy span isolated and parsed, `none` when no span exists or its
parse fails. -/
def spanStage (cleaned : String) : Option Json :=
  match regexSpan cleaned.data with
  | none => none
  | some sub => (jsonParse ⟨sub⟩).toOption

/-- Text containing two JSON objects. -/
def c5Text : String := "\x7b\"a\":1\x7d \x7b\"b\":2\x7d"

/-- C5, counterexample: the extractor does not isolate the first
*balanced* substring — its regex spans greedily from the first
opening brace to the *last* closing brace, so on a text holding two
objects the isolated span is not valid JSON and the extractor throws,
while the first balanced substring would have parsed. -/
theorem c5_greedy_not_balanced :
    parseJsonResponse c5Text = .error .jsonSyntaxError ∧
      specBalancedExtract c5Text = .ok (.obj [("a", .num (.val 1))]) ∧
      parseJsonResponse c5Text ≠ specBalancedExtract c5Text :=
  ⟨rfl, rfl, by decide⟩

/-- C5 (amended): every payload `parseJsonResponse` returns comes
either from the direct `JSON.parse` of the fence-stripped trimmed
text or — only when that parse fails — from parsing the greedy span
running from the first opening brace/bracket to the last closing one
(not the first balanced substring); and when the direct parse and the
span parse both fail (including a span with broken syntax such as a
trailing comma), an error is raised — no repair beyond fence
stripping and span isolation is attempted. -/
theorem c5_extractor_stages :
    (∀ text v, parseJsonResponse text = .ok v →
      jsonParse (cleanResponseText text) = .ok v ∨
        ((jsonParse (cleanResponseText text)).toOption = none ∧
          spanStage (cleanResponseText text) = some v)) ∧
    (∀ text, text ≠ "" → (jsonParse (cleanResponseText text)).toOption = none →
      spanStage (cleanResponseText text) = none →
      ∃ e, parseJsonResponse text = .error e) := by
  constructor
  · intro text v h
    unfold parseJsonResponse at h
    split at h
    · exact Except.noConfusion h
    · cases hj : jsonParse (cleanResponseText text) with
      | ok j =>
        rw [hj] at h
        simp only [] at h
        exact Or.inl (congrArg Except.ok (Except.ok.inj h))
      | error e =>
        rw [hj] at h
        simp only [] at h
        cases hs : regexSpan (cleanResponseText text).data with
        | none =>
          rw [hs] at h
          exact Except.noConfusion h
        | some sub =>
          rw [hs] at h
          simp only [] at h
          cases hjp : jsonParse ⟨sub⟩ with
          | ok w =>
            rw [hjp] at h
            simp only [] at h
            refine Or.inr ⟨rfl, ?_⟩
            simp only [spanStage, hs, hjp]
            rw [Except.ok.inj h]
            rfl
          | error e2 =>
            rw [hjp] at h
            exact Except.noConfusion h
  · intro text hne hdirect hspan
    unfold parseJsonResponse
    rw [if_neg hne]
    cases hj : jsonParse (cleanResponseText text) with
    | ok j =>
      rw [hj] at hdirect
      simp [Except.toOption] at hdirect
    | error e =>
      cases hs : regexSpan (cleanResponseText text).data with
      | none =>
        exact ⟨.thrown "Failed to parse JSON from Gemini response.", rfl⟩
      | some sub =>
        simp only [spanStage, hs] at hspan
        cases hjp : jsonParse ⟨sub⟩ with
        | ok w =>
          rw [hjp] at hspan
          simp [Except.toOption] at hspan
        | error e2 =>
          exact ⟨.jsonSyntaxError, by simp only [hjp]⟩

/-- Scenario C text: prose followed by an array with a trailing comma. -/
def c5SceneC : String := "Here is the quiz: [1, 2,]"

/-- C5, witness: the amended theorem's error clause applied to the
trailing-comma scenario. -/
theorem c5_extractor_stages_witness : ∃ e, parseJsonResponse c5SceneC = .error e :=
  c5_extractor_stages.2 c5SceneC (by decide) (by decide) (by decide)

end Edura

namespace Edura

/-! ### Claim C6 -/

/-- Configuration with no API key set. -/
def cfgMissing : ApiConfig := ⟨none, "gemini-2.5-flash"⟩

/-- Provider stub that must never be reached. -/
def provNever : String → String → Except String String :=
  fun _ _ => .error "provider must not be reached"

/-- C6, counterexample: with no credential configured `generateQuiz`
raises the configuration error before any provider call, but its
catch-all rethrows the per-operation generic failure message, so the
operation does not surface the uniform not-configured message. -/
theorem c6_generic_message_not_config :
    quizOp cfgMissing provNever "photosynthesis" =
      (.error "Failed to generate quiz. Please try again.", []) ∧
      "Failed to generate quiz. Please try again." ≠ configErrMsg :=
  ⟨rfl, by decide⟩

/-- C6 (amended): with no API credential configured, every generation
operation raises the configuration error synchronously inside
`generateText`, before any provider call — no completion request is
ever dispatched without a credential, and the provider-call trace is
empty — and `generateText` throws the uniform not-configured message;
each public operation's catch-all then surfaces that operation's
generic failure message in its place. -/
theorem c6_config_gate (cfg : ApiConfig) (provider : String → String → Except String String)
    (hmiss : apiKeyMissing cfg = true) :
    (∀ prompt, generateTextT cfg provider prompt = (.error configErrMsg, [])) ∧
    (∀ messages, chatOp cfg provider messages =
      (.error "Failed to get AI response. Please try again.", [])) ∧
    (∀ content, summaryOp cfg provider content =
      (.error "Failed to generate summary. Please try again.", [])) ∧
    (∀ text lang, translateOp cfg provider text lang =
      (.error "Failed to translate text. Please try again.", [])) ∧
    (∀ content, flashOp cfg provider content =
      (.error "Failed to generate flashcards. Please try again.", [])) ∧
    (∀ content, quizOp cfg provider content =
      (.error "Failed to generate quiz. Please try again.", [])) ∧
    (∀ goal, roadmapOp cfg provider goal =
      (.error "Failed to generate roadmap. Please try again.", [])) ∧
    (∀ answers, detailedOp cfg provider answers =
      (.error "Failed to generate detailed roadmap. Please try again.", [])) ∧
    (∀ input, outlineOp cfg provider input =
      (.error "Failed to generate course outline. Please try again.", [])) := by
  have hg : ∀ prompt, generateTextT cfg provider prompt = (.error configErrMsg, []) := by
    intro prompt
    unfold generateTextT
    rw [if_pos hmiss]
  refine ⟨hg, ?_, ?_, ?_, ?_, ?_, ?_, ?_, ?_⟩
  · intro messages
    simp [chatOp, hg]
  · intro content
    simp [summaryOp, hg]
  · intro text lang
    simp [translateOp, hg]
  · intro content
    simp [flashOp, hg]
  · intro content
    simp [quizOp, hg]
  · intro goal
    simp [roadmapOp, hg]
  · intro answers
    simp [detailedOp, hg]
  · intro input
    simp [outlineOp, hg]

/-- C6, witness: the uniform `generateText` conclusion applied to the
key-less configuration. -/
theorem c6_config_gate_witness :
    generateTextT cfgMissing provNever "prompt" = (.error configErrMsg, []) :=
  (c6_config_gate cfgMissing provNever rfl).1 "prompt"

end Edura

namespace Edura

/-! ### Claim C2 -/

theorem trace_no_llm {l : List DbEvent} (hn : DbEvent.llmCall ∉ l) :
    ∀ pre post, l = pre ++ DbEvent.llmCall :: post →
      ∃ u, DbEvent.insertJob u "running" ∈ pre := by
  intro pre post h
  have hmem : DbEvent.llmCall ∈ l := by
    rw [h]
    exact List.mem_append_right pre (List.mem_cons_self _ _)
  exact absurd hmem hn

theorem trace_head_insert {u : String} {rest : List DbEvent} :
    ∀ pre post, DbEvent.insertJob u "running" :: rest = pre ++ DbEvent.llmCall :: post →
      ∃ w, DbEvent.insertJob w "running" ∈ pre := by
  intro pre post h
  cases pre with
  | nil => simp at h
  | cons a pre2 =>
    have ha := (List.cons.inj h).1
    exact ⟨u, by rw [← ha]; exact List.mem_cons_self _ _⟩

/-- C2: in every `generateAICourse` run the job row is inserted with
status `running` strictly before the completion call; the job is
updated at most once (so it never leaves a terminal state), exactly
once when the completion call was reached; and every update is either
to `done` with the created course id as result and a successful
return, or to `failed` with an error message equal to the thrown
error's message, which is also the returned error. -/
theorem c2_job_lifecycle (env : CsEnv) :
    (∀ pre post, (runGenerateAICourse env).2 = pre ++ DbEvent.llmCall :: post →
        ∃ u, DbEvent.insertJob u "running" ∈ pre) ∧
    ((runGenerateAICourse env).2.filter isJobUpdate).length ≤ 1 ∧
    (DbEvent.llmCall ∈ (runGenerateAICourse env).2 →
        ((runGenerateAICourse env).2.filter isJobUpdate).length = 1) ∧
    (∀ jid st r em, DbEvent.updateJob jid st r em ∈ (runGenerateAICourse env).2 →
        jid = env.jobId ∧
        ((st = "done" ∧ em = none ∧ r = some env.courseId ∧
            (runGenerateAICourse env).1 = (some env.courseId, none)) ∨
         (st = "failed" ∧ r = none ∧ ∃ m, em = some m ∧
            (runGenerateAICourse env).1 = (none, some m)))) := by
  obtain ⟨uid, jobId, jobIns, genC, courseId, courseIns, modIns⟩ := env
  rcases uid with _ | uid
  · refine ⟨trace_no_llm (by simp [runGenerateAICourse]), ?_, ?_, ?_⟩
    · simp [runGenerateAICourse]
    · intro hmem
      simp [runGenerateAICourse] at hmem
    · intro jid st r em hmem
      simp [runGenerateAICourse] at hmem
  · rcases jobIns with _ | e
    case some =>
      refine ⟨trace_no_llm (by simp [runGenerateAICourse]), ?_, ?_, ?_⟩
      · simp [runGenerateAICourse, isJobUpdate]
      · intro hmem
        simp [runGenerateAICourse] at hmem
      · intro jid st r em hmem
        simp [runGenerateAICourse] at hmem
    case none =>
      rcases genC with m | u
      · refine ⟨?_, ?_, ?_, ?_⟩
        · exact trace_head_insert
        · simp [runGenerateAICourse, isJobUpdate, List.filter]
        · intro hmem
          simp [runGenerateAICourse, isJobUpdate, List.filter]
        · intro jid st r em hmem
          simp [runGenerateAICourse] at hmem
          obtain ⟨h1, h2, h3, h4⟩ := hmem
          subst h1
          exact ⟨rfl, Or.inr ⟨h2, h3, m, h4, by simp [runGenerateAICourse]⟩⟩
      · rcases courseIns with _ | e
        case some =>
          refine ⟨?_, ?_, ?_, ?_⟩
          · exact trace_head_insert
          · simp [runGenerateAICourse, isJobUpdate, List.filter]
          · intro hmem
            simp [runGenerateAICourse, isJobUpdate, List.filter]
          · intro jid st r em hmem
            simp [runGenerateAICourse] at hmem
            obtain ⟨h1, h2, h3, h4⟩ := hmem
            subst h1
            exact ⟨rfl, Or.inr ⟨h2, h3, _, h4, by simp [runGenerateAICourse]⟩⟩
        case none =>
          rcases modIns with _ | e
          case some =>
            refine ⟨?_, ?_, ?_, ?_⟩
            · exact trace_head_insert
            · simp [runGenerateAICourse, isJobUpdate, List.filter]
            · intro hmem
              simp [runGenerateAICourse, isJobUpdate, List.filter]
            · intro jid st r em hmem
              simp [runGenerateAICourse] at hmem
              obtain ⟨h1, h2, h3, h4⟩ := hmem
              subst h1
              exact ⟨rfl, Or.inr ⟨h2, h3, _, h4, by simp [runGenerateAICourse]⟩⟩
          case none =>
            refine ⟨?_, ?_, ?_, ?_⟩
            · exact trace_head_insert
            · simp [runGenerateAICourse, isJobUpdate, List.filter]
            · intro hmem
              simp [runGenerateAICourse, isJobUpdate, List.filter]
            · intro jid st r em hmem
              simp [runGenerateAICourse] at hmem
              obtain ⟨h1, h2, h3, h4⟩ := hmem
              subst h1
              exact ⟨rfl, Or.inl ⟨h2, h4, h3, by simp [runGenerateAICourse]⟩⟩

/-- Environment of a fully successful run. -/
def c2Env : CsEnv := ⟨some "user-1", "job-1", none, .ok (), "course-1", none, none⟩

/-- C2, witness: the lifecycle theorem applied to a successful run,
with the split of its trace around the completion call made
explicit. -/
theorem c2_job_lifecycle_witness :
    (∃ u, DbEvent.insertJob u "running" ∈ [DbEvent.insertJob "user-1" "running"]) ∧
      ((runGenerateAICourse c2Env).2.filter isJobUpdate).length ≤ 1 :=
  ⟨(c2_job_lifecycle c2Env).1 [DbEvent.insertJob "user-1" "running"]
      [DbEvent.insertCourse, DbEvent.insertModules,
       DbEvent.updateJob "job-1" "done" (some "course-1") none] rfl,
   (c2_job_lifecycle c2Env).2.1⟩

/-! ### Claim C9 -/

/-- Course-insert failure: a not-null violation on `owner_id`. -/
def c9Env : CsEnv :=
  ⟨some "user-1", "job-1", none, .ok (), "course-1",
   some ⟨"23502", "null value in column \"owner_id\" violates not-null constraint"⟩, none⟩

/-- C9, counterexample: a persistence failure that is neither a
relation-not-found error nor a not-null violation on the legacy
`user_id` column does not propagate unchanged — a `23502` violation
naming `owner_id` is rewritten into an internal-error message. -/
theorem c9_owner_id_rewritten :
    (runGenerateAICourse c9Env).1 = (none, some ownerIdConstraintMsg) ∧
      ownerIdConstraintMsg ≠ "null value in column \"owner_id\" violates not-null constraint" :=
  ⟨rfl, by decide⟩

/-- C9 (amended): persistence failures are classified per insert
site.  A failing job insert is rewritten to the schema-not-migrated
message exactly when its code is `42P01` or its message mentions
`does not exist`; a failing course insert is rewritten to the
migration-incomplete message for a `23502` violation naming
`user_id`, to the internal-error message for one naming `owner_id`,
and propagates unchanged otherwise, the rewritten message also being
recorded on the failed job; a failing modules insert always
propagates unchanged. -/
theorem c9_persistence_error_classification :
    (∀ env e, env.userId.isSome = true → env.jobInsert = some e →
        (runGenerateAICourse env).1 = (none, some (classifyJobInsertError e))) ∧
    (∀ env e, env.userId.isSome = true → env.jobInsert = none → env.genCourse = .ok () →
        env.courseInsert = some e →
        (runGenerateAICourse env).1 = (none, some (classifyCourseInsertError e)) ∧
        DbEvent.updateJob env.jobId "failed" none (some (classifyCourseInsertError e)) ∈
          (runGenerateAICourse env).2) ∧
    (∀ env e, env.userId.isSome = true → env.jobInsert = none → env.genCourse = .ok () →
        env.courseInsert = none → env.modulesInsert = some e →
        (runGenerateAICourse env).1 = (none, some e.message)) := by
  refine ⟨?_, ?_, ?_⟩
  · intro env e hu hj
    obtain ⟨uid, jobId, jobIns, genC, courseId, courseIns, modIns⟩ := env
    rcases uid with _ | uid
    · simp at hu
    · simp only at hj
      subst hj
      simp [runGenerateAICourse, classifyJobInsertError]
  · intro env e hu hj hg hc
    obtain ⟨uid, jobId, jobIns, genC, courseId, courseIns, modIns⟩ := env
    rcases uid with _ | uid
    · simp at hu
    · simp only at hj hg hc
      subst hj
      subst hg
      subst hc
      constructor
      · simp [runGenerateAICourse, classifyCourseInsertError]
      · simp [runGenerateAICourse, classifyCourseInsertError]
  · intro env e hu hj hg hc hm
    obtain ⟨uid, jobId, jobIns, genC, courseId, courseIns, modIns⟩ := env
    rcases uid with _ | uid
    · simp at hu
    · simp only at hj hg hc hm
      subst hj
      subst hg
      subst hc
      subst hm
      simp [runGenerateAICourse]

/-- Job-insert failure on a missing relation. -/
def c9JobEnv : CsEnv :=
  ⟨some "user-1", "job-1", some ⟨"42P01", "relation \"ai_course_jobs\" does not exist"⟩,
   .ok (), "course-1", none, none⟩

/-- Modules-insert failure unrelated to the classified codes. -/
def c9ModEnv : CsEnv :=
  ⟨some "user-1", "job-1", none, .ok (), "course-1", none,
   some ⟨"23505", "duplicate key value violates unique constraint"⟩⟩

/-- C9, witness: the three classification clauses applied to concrete
failing environments. -/
theorem c9_persistence_error_classification_witness :
    (runGenerateAICourse c9JobEnv).1 =
      (none, some (classifyJobInsertError
        ⟨"42P01", "relation \"ai_course_jobs\" does not exist"⟩)) ∧
    (runGenerateAICourse c9Env).1 =
      (none, some (classifyCourseInsertError
        ⟨"23502", "null value in column \"owner_id\" violates not-null constraint"⟩)) ∧
    (runGenerateAICourse c9ModEnv).1 =
      (none, some "duplicate key value violates unique constraint") :=
  ⟨c9_persistence_error_classification.1 c9JobEnv _ rfl rfl,
   (c9_persistence_error_classification.2.1 c9Env _ rfl rfl rfl rfl).1,
   c9_persistence_error_classification.2.2 c9ModEnv _ rfl rfl rfl rfl rfl⟩

end Edura
